import Mathlib

/-!
# SPI channel driver (SPI.c): shallow embedding

The driver keeps one global record `spi_data` (state, a 10 byte array shared by
the outbound and the inbound direction, two cursors and a count of unsent
bytes).  Every C function becomes a pure function on that record.

Conventions of the embedding:

* `uint8_t` values are natural numbers; every increment or decrement the
  source performs on one is written with an explicit `% 256`.
* the `spi_states_t` enum is stored as its integer value, so that a stored
  value outside the four enumerators (the `default:` branch of
  `spi_run_state`) can be expressed.
* the array `spi_data.data` is an index-addressed map `Nat → Nat`.  The array
  proper is the positions `0 .. 9`; the positions a function touches are
  recorded next to its result so that range safety can be stated.
* the fields `r_index`, `w_index` and `len` are single bytes that follow the
  array in the record, so `spi_data.data[10]`, `[11]` and `[12]` are those
  fields: `loadData` reads them there and `storeData` writes them there.
  Positions from 13 on are memory behind the record, which the source does
  not determine; no theorem states a byte loaded from there.
* the caller's buffers (`uint8_t *data`) are maps from the pointer offset to
  the byte stored there.
* the data register `SPDR` is external: a read of it is an argument, a write
  to it is part of the result.
-/

namespace SPI

/-! ## Data model -/

/-- Size of the ring buffer, `#define SPI_BUFFER_SIZE 10`. -/
def SPI_BUFFER_SIZE : Nat := 10

/-- Enumerator `Idle` of `spi_states_t`. -/
def Idle : Nat := 0

/-- Enumerator `Attached` of `spi_states_t`. -/
def Attached : Nat := 1

/-- Enumerator `Send` of `spi_states_t` (the spec calls it Sending). -/
def Send : Nat := 2

/-- Enumerator `Complete` of `spi_states_t`. -/
def Complete : Nat := 3

/-- The record `spi_struct`; the global `spi_data` is a value of it. -/
structure spi_struct where
  /-- Field `state`, the stored enum value. -/
  state : Nat
  /-- Field `data`, the ring buffer. -/
  data : Nat → Nat
  /-- Field `r_index`, start of unread data. -/
  r_index : Nat
  /-- Field `w_index`, start of unsent data. -/
  w_index : Nat
  /-- Field `len`, number of bytes of unsent data. -/
  len : Nat

/-- Assignment `a[i] = v` on an index-addressed byte map. -/
def setByte (a : Nat → Nat) (i v : Nat) : Nat → Nat :=
  fun j => if j = i then v else a j

/-- The load `spi_data.data[i]`.  Positions 10, 11 and 12 are the bytes of the
fields `r_index`, `w_index` and `len`, which follow the array in the record. -/
def loadData (s : spi_struct) (i : Nat) : Nat :=
  if i = SPI_BUFFER_SIZE then s.r_index
  else if i = SPI_BUFFER_SIZE + 1 then s.w_index
  else if i = SPI_BUFFER_SIZE + 2 then s.len
  else s.data i

/-- The store `spi_data.data[i] = v`.  The byte map records the store at every
position; at positions 10, 11 and 12 the store lands on the field `r_index`,
`w_index` or `len`, which follow the array in the record. -/
def storeData (s : spi_struct) (i v : Nat) : spi_struct :=
  let s1 : spi_struct := { s with data := setByte s.data i v }
  if i = SPI_BUFFER_SIZE then { s1 with r_index := v }
  else if i = SPI_BUFFER_SIZE + 1 then { s1 with w_index := v }
  else if i = SPI_BUFFER_SIZE + 2 then { s1 with len := v }
  else s1

/-- The bytes `src p`, `src (p + 1)`, .. stored one after the other at the
listed positions of a byte map. -/
def writeAll (a : Nat → Nat) (src : Nat → Nat) : List Nat → Nat → (Nat → Nat)
  | [], _ => a
  | i :: rest, p => writeAll (setByte a i (src p)) src rest (p + 1)

/-! ## Operations -/

/-- Function `spi_init`: zero both cursors and the count, state `Idle`.  The
array is not touched. -/
def spi_init (s : spi_struct) : spi_struct :=
  { s with r_index := 0, w_index := 0, len := 0, state := Idle }

/-- Function `spi_run_state`: the `switch` over the stored state.  Returns the
new record and `ret_val`, which is always 0. -/
def spi_run_state (s : spi_struct) : spi_struct × Nat :=
  if s.state = Idle then (s, 0)
  else if s.state = Attached then (s, 0)
  else if s.state = Send then
    (if s.len = 0 then { s with state := Complete } else s, 0)
  else if s.state = Complete then (s, 0)
  else ({ s with state := Idle }, 0)

/-- Function `SPI_CheckComplete`. -/
def SPI_CheckComplete (s : spi_struct) : Nat :=
  if s.state = Complete then 1 else 0

/-- Function `spi_request_attach`: returns the new record and `ret_val`. -/
def spi_request_attach (s : spi_struct) : spi_struct × Nat :=
  if s.state = Idle then ({ s with state := Attached }, 1) else (s, 0)

/-- Function `SPI_Release`: returns the new record and `ret_val`. -/
def SPI_Release (s : spi_struct) : spi_struct × Nat :=
  if s.len = 0 ∧ s.state = Complete then ({ s with state := Idle }, 1) else (s, 0)

/-- Result of `spi_TXRX_data`. -/
structure TxResult where
  /-- The record after the call. -/
  s : spi_struct
  /-- The returned value, what is left of the parameter `len`. -/
  ret : Nat
  /-- The byte written to `SPDR` by the call, when it writes one. -/
  spdr : Option Nat
  /-- The positions of `spi_data.data` the call stored to or loaded from, in
  program order. -/
  touched : List Nat

/-- Loop variables of the `while` of `spi_TXRX_data` when it is left. -/
structure TxLoop where
  /-- The record. -/
  s : spi_struct
  /-- The parameter `len`, counted down. -/
  len : Nat
  /-- The positions stored to, in order. -/
  stored : List Nat

/-- The `while ((len>0)&&(spi_data.len<=SPI_BUFFER_SIZE))` loop of
`spi_TXRX_data`.  The first argument is the parameter `len`, `temp` is the
running store index and `p` the offset the pointer `data` has advanced by. -/
def txLoop (src : Nat → Nat) : Nat → spi_struct → Nat → Nat → List Nat → TxLoop
  | 0, s, _, _, acc => ⟨s, 0, acc⟩
  | n + 1, s, temp, p, acc =>
    if s.len ≤ SPI_BUFFER_SIZE then
      let s1 : spi_struct := { s with len := (s.len + 1) % 256 }
      let temp1 := (temp + 1) % 256
      let temp2 := if temp1 ≥ SPI_BUFFER_SIZE then temp1 - SPI_BUFFER_SIZE else temp1
      let s2 : spi_struct := storeData s1 temp2 (src p)
      txLoop src n s2 temp2 (p + 1) (acc ++ [temp2])
    else ⟨s, n + 1, acc⟩

/-- Function `spi_TXRX_data(len, data)`. -/
def spi_TXRX_data (s : spi_struct) (len : Nat) (src : Nat → Nat) : TxResult :=
  let s0 : spi_struct := { s with r_index := s.w_index }
  let temp := (s0.w_index + s0.len) % 256
  let l := txLoop src len s0 temp 0 []
  if (l.s.state = Attached ∨ l.s.state = Complete) ∧ l.s.len > 0 then
    ⟨{ l.s with state := Send }, l.len, some (loadData l.s l.s.w_index),
      l.stored ++ [l.s.w_index]⟩
  else ⟨l.s, l.len, none, l.stored⟩

/-- Result of `SPI_read_data`. -/
structure RdResult where
  /-- The record after the call. -/
  s : spi_struct
  /-- The caller's buffer after the call, by offset from the pointer passed. -/
  out : Nat → Nat
  /-- The returned value `num_bytes`. -/
  ret : Nat
  /-- The positions of `spi_data.data` the call loaded from, in order. -/
  touched : List Nat

/-- The `while ((r_index != w_index) && (num_bytes < len))` loop of
`SPI_read_data`.  The first argument is `len - num_bytes`, so the test
`num_bytes < len` is the test that it is not zero; `num_bytes` is also the
offset the pointer `data` has advanced by.  It stays below `len`, a
`uint8_t`, so its increment cannot wrap. -/
def rdLoop : Nat → spi_struct → (Nat → Nat) → Nat → List Nat → RdResult
  | 0, s, out, num_bytes, acc => ⟨s, out, num_bytes, acc⟩
  | k + 1, s, out, num_bytes, acc =>
    if s.r_index ≠ s.w_index then
      let out1 := setByte out num_bytes (loadData s s.r_index)
      let s1 : spi_struct := { s with r_index := (s.r_index + 1) % 256 }
      let s2 : spi_struct :=
        if s1.r_index ≥ SPI_BUFFER_SIZE then { s1 with w_index := 0 } else s1
      rdLoop k s2 out1 (num_bytes + 1) (acc ++ [s.r_index])
    else ⟨s, out, num_bytes, acc⟩

/-- Function `SPI_read_data(data, len)`; `out` is the caller's buffer. -/
def SPI_read_data (s : spi_struct) (out : Nat → Nat) (len : Nat) : RdResult :=
  if s.state = Complete then rdLoop len s out 0 [] else ⟨s, out, 0, []⟩

/-- The handler `ISR(SPI_STC_vect)`; `spdr` is the byte read from `SPDR`.
Returns the new record and the byte written to `SPDR`, when one is. -/
def ISR_SPI_STC (s : spi_struct) (spdr : Nat) : spi_struct × Option Nat :=
  let s1 : spi_struct := storeData s s.w_index spdr
  let s2 : spi_struct := { s1 with w_index := (s1.w_index + 1) % 256 }
  let s3 : spi_struct :=
    if s2.w_index ≥ SPI_BUFFER_SIZE then { s2 with w_index := 0 } else s2
  let s4 : spi_struct := { s3 with len := (s3.len + 255) % 256 }
  if s4.len > 0 then (s4, some (loadData s4 s4.w_index))
  else ({ s4 with state := Complete }, none)

/-! ## Sequences of operations -/

/-- The handler fired once per byte of `rx`, the bytes the peripheral clocks
in, oldest first.  Returns the final record and the bytes written to `SPDR`,
in order. -/
def fireAll : List Nat → spi_struct → spi_struct × List Nat
  | [], s => (s, [])
  | b :: rest, s =>
    let r := ISR_SPI_STC s b
    let t := fireAll rest r.1
    (t.1, r.2.toList ++ t.2)

/-- The first `n` bytes of a caller buffer, as a list. -/
def bytesOf (out : Nat → Nat) (n : Nat) : List Nat :=
  (List.range n).map out

/-- One call from the foreground, or one firing of the handler. -/
inductive Op where
  /-- A call of `spi_request_attach`. -/
  | attach
  /-- A call of `SPI_Release`. -/
  | release
  /-- A call of `spi_TXRX_data`. -/
  | enqueue (len : Nat) (src : Nat → Nat)
  /-- A call of `SPI_read_data`. -/
  | read (out : Nat → Nat) (len : Nat)
  /-- A call of `spi_run_state`. -/
  | poll
  /-- A call of `SPI_CheckComplete`. -/
  | isComplete
  /-- A firing of `ISR(SPI_STC_vect)` with the byte read from `SPDR`. -/
  | isr (spdr : Nat)

/-- Whether the operation is a call of `SPI_Release`. -/
def Op.isRelease : Op → Bool
  | .release => true
  | _ => false

/-- The record after one operation. -/
def step (s : spi_struct) : Op → spi_struct
  | .attach => (spi_request_attach s).1
  | .release => (SPI_Release s).1
  | .enqueue len src => (spi_TXRX_data s len src).s
  | .read out len => (SPI_read_data s out len).s
  | .poll => (spi_run_state s).1
  | .isComplete => s
  | .isr spdr => (ISR_SPI_STC s spdr).1

/-- The record after a sequence of operations, first to last. -/
def run (s : spi_struct) (ops : List Op) : spi_struct :=
  ops.foldl step s

/-- The stored state is one of the four enumerators. -/
def validState (s : spi_struct) : Prop :=
  s.state = Idle ∨ s.state = Attached ∨ s.state = Send ∨ s.state = Complete

/-- Some client holds the peripheral: the state is `Attached`, `Send` or
`Complete`. -/
def owned (s : spi_struct) : Prop :=
  s.state = Attached ∨ s.state = Send ∨ s.state = Complete

/-- A record with every byte of the array zero, as after reset and
`spi_init`. -/
def zeroChannel : spi_struct :=
  { state := Idle, data := fun _ => 0, r_index := 0, w_index := 0, len := 0 }

/-- A record in state `Complete` whose unread window wraps the end of the
array: read cursor 8, write cursor 2, slot `i` holding `100 + i`.  It is
reached from `spi_init` by attaching, sending 8 bytes and then 4 more. -/
def wrappedChannel : spi_struct :=
  { state := Complete, data := fun i => 100 + i, r_index := 8, w_index := 2, len := 0 }

/-- An idle record with nothing queued, read cursor 4 and write cursor 7. -/
def idleChannel : spi_struct :=
  { state := Idle, data := fun _ => 0, r_index := 4, w_index := 7, len := 0 }

/-- A sequence of operations without a release: an enqueue of two bytes, two
firings with a poll step between them, a read-out, a status query and an
attach. -/
def sampleOps : List Op :=
  [Op.enqueue 2 (fun i => 40 + i), Op.isr 7, Op.poll, Op.isr 8, Op.read (fun _ => 0) 2,
    Op.isComplete, Op.attach]

/-- An attached record with nothing queued and every byte of the array zero. -/
def attachedChannel : spi_struct :=
  { state := Attached, data := fun _ => 0, r_index := 0, w_index := 0, len := 0 }

/-- An enqueue of `len` bytes followed by one firing of the handler per byte
of `rx`: the final record and every byte written to `SPDR`, in order. -/
def transfer (s : spi_struct) (len : Nat) (src : Nat → Nat) (rx : List Nat) :
    spi_struct × List Nat :=
  let e := spi_TXRX_data s len src
  let f := fireAll rx e.s
  (f.1, e.spdr.toList ++ f.2)

/-- The sequence attach, enqueue of `len` bytes, one firing of the handler per
byte of `rx`, read-out of at most `len` bytes into `out`: the result of the
read-out. -/
def roundTrip (s : spi_struct) (len : Nat) (src : Nat → Nat) (rx : List Nat)
    (out : Nat → Nat) : RdResult :=
  SPI_read_data (transfer (spi_request_attach s).1 len src rx).1 out len

/-! ## Reachable records -/

/-- Whether the operation is a firing of the handler. -/
def Op.isFiring : Op → Bool
  | .isr _ => true
  | _ => false

/-- Whether the sequence of operations, run from `s`, fires the handler only
at points where the state is `Send`. -/
def legal : spi_struct → List Op → Bool
  | _, [] => true
  | s, op :: rest => (!op.isFiring || decide (s.state = Send)) && legal (step s op) rest

/-- What holds in every record reached from `spi_init`: the write cursor is
below 10, and the count is at most 11, at least 1 in state `Send` and 0 in
state `Complete`. -/
def countInv (s : spi_struct) : Prop :=
  s.w_index < SPI_BUFFER_SIZE ∧ s.len ≤ SPI_BUFFER_SIZE + 1 ∧
  (s.state = Send → 1 ≤ s.len) ∧ (s.state = Complete → s.len = 0)

/-- A client attaches, sends 9 bytes and then one more, and reads that last
byte back: the read cursor stands at 9 and has to wrap. -/
def wrapOps : List Op :=
  [Op.attach, Op.enqueue 9 (fun i => 40 + i),
    Op.isr 1, Op.isr 2, Op.isr 3, Op.isr 4, Op.isr 5, Op.isr 6, Op.isr 7, Op.isr 8, Op.isr 9,
    Op.enqueue 1 (fun i => 60 + i), Op.isr 10, Op.read (fun _ => 0) 1]

/-- A client attaches and sends 9 bytes, then queues 10 more: the write cursor
stands at 9 with the count at 10. -/
def fillOps : List Op :=
  [Op.attach, Op.enqueue 9 (fun i => 40 + i),
    Op.isr 1, Op.isr 2, Op.isr 3, Op.isr 4, Op.isr 5, Op.isr 6, Op.isr 7, Op.isr 8, Op.isr 9,
    Op.enqueue 10 (fun i => 60 + i)]

/-- An attached record with three bytes already counted as unsent, as after
an enqueue of three bytes on the idle channel followed by an attach. -/
def attachedPending : spi_struct :=
  { state := Attached, data := fun i => 100 + i, r_index := 0, w_index := 0, len := 3 }

/-- A sending record with one byte in flight. -/
def oneInFlight : spi_struct :=
  { state := Send, data := fun _ => 0, r_index := 0, w_index := 0, len := 1 }

/-- A sending record with write cursor 9 and two bytes left. -/
def sendingAtNine : spi_struct :=
  { state := Send, data := fun i => 100 + i, r_index := 3, w_index := 9, len := 2 }

/-- A client attaches, sends two bytes and both transfers complete, with a
poll step in between. -/
def completeOps : List Op :=
  [Op.attach, Op.enqueue 2 (fun i => 40 + i), Op.isr 7, Op.poll, Op.isr 8, Op.isComplete]

/-- A client attaches, queues two bytes, and the first transfer completes. -/
def sendingOps : List Op :=
  [Op.attach, Op.enqueue 2 (fun i => 40 + i), Op.isr 7, Op.read (fun _ => 0) 2]

/-! ## Preemption inside the enqueue -/

/-- The part of `spi_TXRX_data` behind its loop: the test that starts the
transfer, and the `return len`. -/
def txFinish (l : TxLoop) : TxResult :=
  if (l.s.state = Attached ∨ l.s.state = Complete) ∧ l.s.len > 0 then
    ⟨{ l.s with state := Send }, l.len, some (loadData l.s l.s.w_index),
      l.stored ++ [l.s.w_index]⟩
  else ⟨l.s, l.len, none, l.stored⟩

/-- Function `spi_TXRX_data` with one point of preemption made explicit.  The
statement `spi_data.len++` on the volatile record is a load followed by a
store; `hook` is what runs on the record between the two in the first pass of
the loop.  The source has no statement between its comments `need to disable
the ADC ISR here` and `Re-enable the ADC ISR here` that masks the handler, so
the handler is one such `hook`.  With the identity for `hook` this is
`spi_TXRX_data`. -/
def spi_TXRX_data_preempted (hook : spi_struct → spi_struct) (s : spi_struct) :
    Nat → (Nat → Nat) → TxResult
  | 0, _ => txFinish ⟨{ s with r_index := s.w_index }, 0, []⟩
  | n + 1, src =>
    let s0 : spi_struct := { s with r_index := s.w_index }
    let temp := (s0.w_index + s0.len) % 256
    if s0.len ≤ SPI_BUFFER_SIZE then
      let l := s0.len
      let sh := hook s0
      let s1 : spi_struct := { sh with len := (l + 1) % 256 }
      let temp1 := (temp + 1) % 256
      let temp2 := if temp1 ≥ SPI_BUFFER_SIZE then temp1 - SPI_BUFFER_SIZE else temp1
      let s2 : spi_struct := storeData s1 temp2 (src 0)
      txFinish (txLoop src n s2 temp2 1 [temp2])
    else txFinish ⟨s0, n + 1, []⟩

/-! ## Loads and stores -/

/-- A store never touches the state. -/
theorem storeData_state (s : spi_struct) (i v : Nat) : (storeData s i v).state = s.state := by
  simp only [storeData]
  split
  · rfl
  · split
    · rfl
    · split <;> rfl

/-- A store always shows in the byte map. -/
theorem storeData_data (s : spi_struct) (i v : Nat) :
    (storeData s i v).data = setByte s.data i v := by
  simp only [storeData]
  split
  · rfl
  · split
    · rfl
    · split <;> rfl

/-- A store at a position up to 10 keeps the write cursor and the count; at
position 10 it lands on the read cursor. -/
theorem storeData_le (s : spi_struct) (i v : Nat) (h : i ≤ SPI_BUFFER_SIZE) :
    (storeData s i v).w_index = s.w_index ∧ (storeData s i v).len = s.len ∧
    (storeData s i v).r_index = (if i = SPI_BUFFER_SIZE then v else s.r_index) := by
  simp only [SPI_BUFFER_SIZE] at h
  simp only [storeData, SPI_BUFFER_SIZE]
  by_cases h10 : i = 10
  · simp [h10]
  · have h11 : i ≠ 11 := by omega
    have h12 : i ≠ 12 := by omega
    simp [h10, h11, h12]

/-- A load inside the array reads the byte map. -/
theorem loadData_lt (s : spi_struct) (i : Nat) (h : i < SPI_BUFFER_SIZE) :
    loadData s i = s.data i := by
  simp only [SPI_BUFFER_SIZE] at h
  simp only [loadData, SPI_BUFFER_SIZE]
  rw [if_neg (by omega), if_neg (by omega), if_neg (by omega)]

/-- The running store index after one pass of the enqueue loop is at most 10
when it was at most 19 before. -/
theorem temp_step_le (temp : Nat) (h : temp ≤ 19) :
    (if (temp + 1) % 256 ≥ SPI_BUFFER_SIZE then (temp + 1) % 256 - SPI_BUFFER_SIZE
      else (temp + 1) % 256) ≤ SPI_BUFFER_SIZE := by
  simp only [SPI_BUFFER_SIZE]
  split <;> omega

/-! ## The enqueue loop -/

/-- The loop of `spi_TXRX_data` leaves the state alone. -/
theorem txLoop_state (src : Nat → Nat) :
    ∀ (n : Nat) (s : spi_struct) (temp p : Nat) (acc : List Nat),
      (txLoop src n s temp p acc).s.state = s.state := by
  intro n
  induction n with
  | zero => intro s temp p acc; rfl
  | succ n ih =>
    intro s temp p acc
    simp only [txLoop]
    split
    · rw [ih, storeData_state]
    · rfl

/-- The loop of `spi_TXRX_data` leaves the write cursor alone, as long as the
running store index starts at 19 or below when the loop can run. -/
theorem txLoop_w_index (src : Nat → Nat) :
    ∀ (n : Nat) (s : spi_struct) (temp p : Nat) (acc : List Nat),
      (s.len ≤ SPI_BUFFER_SIZE → temp ≤ 19) →
      (txLoop src n s temp p acc).s.w_index = s.w_index := by
  intro n
  induction n with
  | zero => intro s temp p acc _; rfl
  | succ n ih =>
    intro s temp p acc hT
    simp only [txLoop]
    split
    · rename_i hle
      have hE := temp_step_le temp (hT hle)
      rw [ih _ _ _ _ (fun _ => Nat.le_trans hE (by decide)), (storeData_le _ _ _ hE).1]
    · rfl

/-- The loop of `spi_TXRX_data` leaves the read cursor alone, as long as the
running store index starts at 18 or below when the loop can run. -/
theorem txLoop_r_index (src : Nat → Nat) :
    ∀ (n : Nat) (s : spi_struct) (temp p : Nat) (acc : List Nat),
      (s.len ≤ SPI_BUFFER_SIZE → temp ≤ 18) →
      (txLoop src n s temp p acc).s.r_index = s.r_index := by
  intro n
  induction n with
  | zero => intro s temp p acc _; rfl
  | succ n ih =>
    intro s temp p acc hT
    simp only [txLoop]
    split
    · rename_i hle
      have h18 := hT hle
      have hE : (if (temp + 1) % 256 ≥ SPI_BUFFER_SIZE then (temp + 1) % 256 - SPI_BUFFER_SIZE
          else (temp + 1) % 256) < SPI_BUFFER_SIZE := by
        simp only [SPI_BUFFER_SIZE]
        split <;> omega
      rw [ih _ _ _ _ (fun _ => Nat.le_trans (Nat.le_of_lt hE) (by decide)),
        (storeData_le _ _ _ (Nat.le_of_lt hE)).2.2, if_neg (Nat.ne_of_lt hE)]
    · rfl

/-- Every pass of the loop moves one unit from the parameter `len` to
`spi_data.len`: the count never decreases and the sum is kept. -/
theorem txLoop_count (src : Nat → Nat) :
    ∀ (n : Nat) (s : spi_struct) (temp p : Nat) (acc : List Nat),
      (s.len ≤ SPI_BUFFER_SIZE → temp ≤ 19) →
      s.len ≤ (txLoop src n s temp p acc).s.len ∧
      (txLoop src n s temp p acc).len + (txLoop src n s temp p acc).s.len = n + s.len := by
  intro n
  induction n with
  | zero => intro s temp p acc _; simp [txLoop]
  | succ n ih =>
    intro s temp p acc hT
    simp only [txLoop]
    split
    · rename_i hle
      have hE := temp_step_le temp (hT hle)
      have hm : (s.len + 1) % 256 = s.len + 1 := by
        apply Nat.mod_eq_of_lt
        simp only [SPI_BUFFER_SIZE] at hle
        omega
      have hl := (storeData_le { s with len := (s.len + 1) % 256 } _ (src p) hE).2.1
      simp only [hm] at hl
      constructor
      · refine Nat.le_trans ?_ (ih _ _ _ _ (fun _ => Nat.le_trans hE (by decide))).1
        simp only [hm, hl]
        exact Nat.le_succ _
      · rw [(ih _ _ _ _ (fun _ => Nat.le_trans hE (by decide))).2]
        simp only [hm, hl]
        omega
    · simp

/-- The loop runs the parameter `len` down to zero as long as the count does
not pass `SPI_BUFFER_SIZE + 1`. -/
theorem txLoop_fits (src : Nat → Nat) :
    ∀ (n : Nat) (s : spi_struct) (temp p : Nat) (acc : List Nat),
      (s.len ≤ SPI_BUFFER_SIZE → temp ≤ 19) →
      s.len + n ≤ SPI_BUFFER_SIZE + 1 →
      (txLoop src n s temp p acc).len = 0 := by
  intro n
  induction n with
  | zero => intro s temp p acc _ _; rfl
  | succ n ih =>
    intro s temp p acc hT hfit
    simp only [SPI_BUFFER_SIZE] at hfit
    simp only [txLoop]
    have hle : s.len ≤ SPI_BUFFER_SIZE := by simp only [SPI_BUFFER_SIZE]; omega
    rw [if_pos hle]
    have hE := temp_step_le temp (hT hle)
    have hm : (s.len + 1) % 256 = s.len + 1 := by
      apply Nat.mod_eq_of_lt
      omega
    have hl := (storeData_le { s with len := (s.len + 1) % 256 } _ (src p) hE).2.1
    simp only [hm] at hl
    apply ih _ _ _ _ (fun _ => Nat.le_trans hE (by decide))
    simp only [hm]
    rw [hl]
    simp only [SPI_BUFFER_SIZE]
    omega

/-- The loop of `spi_TXRX_data` never takes the count past
`SPI_BUFFER_SIZE + 1`. -/
theorem txLoop_len_le (src : Nat → Nat) :
    ∀ (n : Nat) (s : spi_struct) (temp p : Nat) (acc : List Nat),
      (s.len ≤ SPI_BUFFER_SIZE → temp ≤ 19) →
      s.len ≤ SPI_BUFFER_SIZE + 1 →
      (txLoop src n s temp p acc).s.len ≤ SPI_BUFFER_SIZE + 1 := by
  intro n
  induction n with
  | zero => intro s temp p acc _ h; exact h
  | succ n ih =>
    intro s temp p acc hT h
    simp only [txLoop]
    split
    · rename_i hle
      have hE := temp_step_le temp (hT hle)
      have hl := (storeData_le { s with len := (s.len + 1) % 256 } _ (src p) hE).2.1
      apply ih _ _ _ _ (fun _ => Nat.le_trans hE (by decide))
      simp only [hl]
      simp only [SPI_BUFFER_SIZE] at hle ⊢
      omega
    · exact h

/-- The loop of `spi_TXRX_data` stores once per unit it takes from the
parameter `len`: the positions it logs extend `acc` by a list `L` of that
length, and the byte map it leaves is the one it found with `src p`,
`src (p + 1)`, .. stored at the positions of `L` in order. -/
theorem txLoop_stores (src : Nat → Nat) :
    ∀ (n : Nat) (s : spi_struct) (temp p : Nat) (acc : List Nat),
      ∃ L : List Nat,
        (txLoop src n s temp p acc).stored = acc ++ L ∧
        L.length + (txLoop src n s temp p acc).len = n ∧
        (txLoop src n s temp p acc).s.data = writeAll s.data src L p := by
  intro n
  induction n with
  | zero => intro s temp p acc; exact ⟨[], by simp [txLoop], rfl, rfl⟩
  | succ n ih =>
    intro s temp p acc
    simp only [txLoop]
    split
    · obtain ⟨L, h1, h2, h3⟩ := ih
        (storeData { s with len := (s.len + 1) % 256 }
          (if (temp + 1) % 256 ≥ SPI_BUFFER_SIZE then (temp + 1) % 256 - SPI_BUFFER_SIZE
            else (temp + 1) % 256) (src p))
        (if (temp + 1) % 256 ≥ SPI_BUFFER_SIZE then (temp + 1) % 256 - SPI_BUFFER_SIZE
            else (temp + 1) % 256) (p + 1)
        (acc ++ [if (temp + 1) % 256 ≥ SPI_BUFFER_SIZE then (temp + 1) % 256 - SPI_BUFFER_SIZE
            else (temp + 1) % 256])
      refine ⟨(if (temp + 1) % 256 ≥ SPI_BUFFER_SIZE then (temp + 1) % 256 - SPI_BUFFER_SIZE
            else (temp + 1) % 256) :: L, ?_, ?_, ?_⟩
      · rw [h1]; simp
      · simp only [List.length_cons]; omega
      · rw [h3, storeData_data]; rfl
    · exact ⟨[], by simp, by simp, rfl⟩

/-! ## Facts about whole calls of the enqueue -/

/-- The returned value of `spi_TXRX_data` and the array, cursors and count it
leaves are those its loop leaves. -/
theorem spi_TXRX_data_loop (s : spi_struct) (len : Nat) (src : Nat → Nat) :
    (spi_TXRX_data s len src).ret =
        (txLoop src len { s with r_index := s.w_index } ((s.w_index + s.len) % 256) 0 []).len ∧
    (spi_TXRX_data s len src).s.len =
        (txLoop src len { s with r_index := s.w_index } ((s.w_index + s.len) % 256) 0 []).s.len ∧
    (spi_TXRX_data s len src).s.r_index =
        (txLoop src len { s with r_index := s.w_index } ((s.w_index + s.len) % 256) 0 []).s.r_index ∧
    (spi_TXRX_data s len src).s.w_index =
        (txLoop src len { s with r_index := s.w_index } ((s.w_index + s.len) % 256) 0 []).s.w_index ∧
    (spi_TXRX_data s len src).s.data =
        (txLoop src len { s with r_index := s.w_index } ((s.w_index + s.len) % 256) 0 []).s.data := by
  simp only [spi_TXRX_data]
  split <;> exact ⟨rfl, rfl, rfl, rfl, rfl⟩

/-- With the write cursor below 10 the running store index of
`spi_TXRX_data` starts at 19 or below whenever its loop can run. -/
theorem temp_start_le (s : spi_struct) (hw : s.w_index < SPI_BUFFER_SIZE) :
    s.len ≤ SPI_BUFFER_SIZE → (s.w_index + s.len) % 256 ≤ 19 := by
  intro hle
  simp only [SPI_BUFFER_SIZE] at hw hle
  omega

/-- The state `spi_TXRX_data` leaves: `Send` when the state was `Attached` or
`Complete` and the count it leaves is positive, the old state otherwise. -/
theorem spi_TXRX_data_state (s : spi_struct) (len : Nat) (src : Nat → Nat) :
    (spi_TXRX_data s len src).s.state =
      if (s.state = Attached ∨ s.state = Complete) ∧ (spi_TXRX_data s len src).s.len > 0
      then Send else s.state := by
  simp only [spi_TXRX_data, txLoop_state]
  split
  · rfl
  · exact txLoop_state _ _ _ _ _ _

/-- With the write cursor below 10, `spi_TXRX_data` never lowers the count,
and what it returns plus the count it leaves is `len` plus the old count. -/
theorem spi_TXRX_data_count (s : spi_struct) (len : Nat) (src : Nat → Nat)
    (hw : s.w_index < SPI_BUFFER_SIZE) :
    s.len ≤ (spi_TXRX_data s len src).s.len ∧
    (spi_TXRX_data s len src).ret + (spi_TXRX_data s len src).s.len = len + s.len := by
  obtain ⟨e1, e2, _, _, _⟩ := spi_TXRX_data_loop s len src
  rw [e1, e2]
  exact txLoop_count src len { s with r_index := s.w_index } _ 0 [] (temp_start_le s hw)

/-- With the write cursor below 10, `spi_TXRX_data` returns 0 when the old
count plus `len` does not pass `SPI_BUFFER_SIZE + 1`. -/
theorem spi_TXRX_data_fits (s : spi_struct) (len : Nat) (src : Nat → Nat)
    (hw : s.w_index < SPI_BUFFER_SIZE) (hfit : s.len + len ≤ SPI_BUFFER_SIZE + 1) :
    (spi_TXRX_data s len src).ret = 0 := by
  rw [(spi_TXRX_data_loop s len src).1]
  exact txLoop_fits src len { s with r_index := s.w_index } _ 0 [] (temp_start_le s hw) hfit

/-- With the write cursor below 10, `spi_TXRX_data` never takes the count
past `SPI_BUFFER_SIZE + 1`. -/
theorem spi_TXRX_data_len_le (s : spi_struct) (len : Nat) (src : Nat → Nat)
    (hw : s.w_index < SPI_BUFFER_SIZE) (h : s.len ≤ SPI_BUFFER_SIZE + 1) :
    (spi_TXRX_data s len src).s.len ≤ SPI_BUFFER_SIZE + 1 := by
  rw [(spi_TXRX_data_loop s len src).2.1]
  exact txLoop_len_le src len { s with r_index := s.w_index } _ 0 [] (temp_start_le s hw) h

/-- With the write cursor below 10, `spi_TXRX_data` keeps the write cursor. -/
theorem spi_TXRX_data_w_index (s : spi_struct) (len : Nat) (src : Nat → Nat)
    (hw : s.w_index < SPI_BUFFER_SIZE) :
    (spi_TXRX_data s len src).s.w_index = s.w_index := by
  rw [(spi_TXRX_data_loop s len src).2.2.2.1]
  exact txLoop_w_index src len { s with r_index := s.w_index } _ 0 [] (temp_start_le s hw)

/-- With write cursor plus count at 18 or below whenever the loop can run,
`spi_TXRX_data` leaves the read cursor at the write cursor. -/
theorem spi_TXRX_data_r_index (s : spi_struct) (len : Nat) (src : Nat → Nat)
    (h18 : s.len ≤ SPI_BUFFER_SIZE → s.w_index + s.len ≤ 18) :
    (spi_TXRX_data s len src).s.r_index = s.w_index := by
  rw [(spi_TXRX_data_loop s len src).2.2.1]
  exact txLoop_r_index src len { s with r_index := s.w_index } _ 0 []
    (fun hle => Nat.le_trans (Nat.mod_le _ _) (h18 hle))

/-- What `spi_TXRX_data` writes to `SPDR` when the write cursor is below 10:
the slot at the write cursor when the state was `Attached` or `Complete` and
the count it leaves is positive, nothing otherwise. -/
theorem spi_TXRX_data_spdr (s : spi_struct) (len : Nat) (src : Nat → Nat)
    (hw : s.w_index < SPI_BUFFER_SIZE) :
    (spi_TXRX_data s len src).spdr =
      if (s.state = Attached ∨ s.state = Complete) ∧ (spi_TXRX_data s len src).s.len > 0
      then some ((spi_TXRX_data s len src).s.data s.w_index) else none := by
  have hwl := txLoop_w_index src len { s with r_index := s.w_index }
    ((s.w_index + s.len) % 256) 0 [] (temp_start_le s hw)
  simp only at hwl
  simp only [spi_TXRX_data, txLoop_state]
  split
  · simp only [hwl]
    rw [loadData_lt _ _ hw]
  · rfl

/-- The stores of `spi_TXRX_data`: it never returns more than `len`; the
positions it touches are `len` minus the returned value stores, followed by
one load when it writes to `SPDR`; and the byte map it leaves is the one it
found with `src 0`, `src 1`, .. stored at those positions in order. -/
theorem spi_TXRX_data_stores (s : spi_struct) (len : Nat) (src : Nat → Nat) :
    (spi_TXRX_data s len src).ret ≤ len ∧
    (spi_TXRX_data s len src).touched.length =
      (len - (spi_TXRX_data s len src).ret) + (spi_TXRX_data s len src).spdr.toList.length ∧
    (spi_TXRX_data s len src).s.data =
      writeAll s.data src
        ((spi_TXRX_data s len src).touched.take (len - (spi_TXRX_data s len src).ret)) 0 := by
  obtain ⟨L, h1, h2, h3⟩ := txLoop_stores src len { s with r_index := s.w_index }
    ((s.w_index + s.len) % 256) 0 []
  simp only [List.nil_append] at h1
  have hk : len - (txLoop src len { s with r_index := s.w_index }
      ((s.w_index + s.len) % 256) 0 []).len = L.length := by omega
  simp only [spi_TXRX_data]
  split
  · simp only [h1, hk, Option.toList_some, List.length_append, List.length_singleton,
      List.take_left']
    exact ⟨by omega, trivial, h3⟩
  · simp only [h1, hk, Option.toList_none, List.length_nil, List.take_length]
    exact ⟨by omega, by omega, h3⟩

/-! ## The completion handler -/

/-- A store inside the array changes the byte map only. -/
theorem storeData_lt (s : spi_struct) (i v : Nat) (h : i < SPI_BUFFER_SIZE) :
    storeData s i v = { s with data := setByte s.data i v } := by
  simp only [SPI_BUFFER_SIZE] at h
  simp only [storeData, SPI_BUFFER_SIZE]
  rw [if_neg (by omega), if_neg (by omega), if_neg (by omega)]

/-- One firing of the handler keeps the state or sets it to `Complete`. -/
theorem ISR_state (s : spi_struct) (b : Nat) :
    (ISR_SPI_STC s b).1.state = s.state ∨ (ISR_SPI_STC s b).1.state = Complete := by
  simp only [ISR_SPI_STC]
  split <;> split <;> first
    | (right; rfl)
    | (left; exact storeData_state _ _ _)

/-- Field by field effect of one firing of the handler on a record whose
write cursor is below 10. -/
theorem ISR_fields (s : spi_struct) (b : Nat) (hw : s.w_index < SPI_BUFFER_SIZE) :
    (ISR_SPI_STC s b).1.len = (s.len + 255) % 256 ∧
    (ISR_SPI_STC s b).1.r_index = s.r_index ∧
    (ISR_SPI_STC s b).1.w_index =
      (if (s.w_index + 1) % 256 ≥ SPI_BUFFER_SIZE then 0 else (s.w_index + 1) % 256) ∧
    (ISR_SPI_STC s b).1.data = setByte s.data s.w_index b ∧
    (ISR_SPI_STC s b).1.state = (if (s.len + 255) % 256 > 0 then s.state else Complete) := by
  simp only [ISR_SPI_STC, storeData_lt s s.w_index b hw]
  split <;> split <;> simp_all

/-- One firing of the handler on a record whose write cursor is below 10
leaves the write cursor below 10. -/
theorem ISR_w_index_lt (s : spi_struct) (b : Nat) (hw : s.w_index < SPI_BUFFER_SIZE) :
    (ISR_SPI_STC s b).1.w_index < SPI_BUFFER_SIZE := by
  rw [(ISR_fields s b hw).2.2.1]
  simp only [SPI_BUFFER_SIZE] at hw ⊢
  split <;> omega

/-- What one firing of the handler writes to `SPDR` on a record whose write
cursor is below 10: the slot at the new write cursor when the new count is
positive, nothing otherwise. -/
theorem ISR_spdr (s : spi_struct) (b : Nat) (hw : s.w_index < SPI_BUFFER_SIZE) :
    (ISR_SPI_STC s b).2 =
      if (s.len + 255) % 256 > 0
      then some ((ISR_SPI_STC s b).1.data (ISR_SPI_STC s b).1.w_index) else none := by
  have hw' := ISR_w_index_lt s b hw
  rw [← loadData_lt _ _ hw']
  simp only [ISR_SPI_STC, storeData_lt s s.w_index b hw]
  split <;> split <;> simp_all

/-- Firing the handler `rx.length` times on a sending channel whose count is
at least that and whose write cursor is below 10: the count goes down by one
per firing, the state stays `Send` while bytes remain and is `Complete` once
the count is zero. -/
theorem fireAll_count :
    ∀ (rx : List Nat) (s : spi_struct),
      s.w_index < SPI_BUFFER_SIZE →
      s.state = Send → 1 ≤ s.len → s.len < 256 → rx.length ≤ s.len →
      (fireAll rx s).1.len = s.len - rx.length ∧
      (rx.length < s.len → (fireAll rx s).1.state = Send) ∧
      (rx.length = s.len → (fireAll rx s).1.state = Complete) := by
  intro rx
  induction rx with
  | nil =>
    intro s _ hst h1 _ _
    simp only [fireAll, List.length_nil]
    refine ⟨by omega, fun _ => hst, fun h => by omega⟩
  | cons b rest ih =>
    intro s hw hst h1 h256 hlen
    simp only [List.length_cons] at hlen
    obtain ⟨hl, _, _, _, hs⟩ := ISR_fields s b hw
    have hm : (s.len + 255) % 256 = s.len - 1 := by omega
    rw [hm] at hl hs
    simp only [fireAll, List.length_cons]
    by_cases hz : s.len - 1 = 0
    · have hrest : rest = [] := by
        apply List.eq_nil_of_length_eq_zero
        omega
      subst hrest
      have hs2 : (ISR_SPI_STC s b).1.state = Complete := by
        rw [hs]; simp [hz]
      simp only [fireAll, List.length_nil]
      refine ⟨by omega, fun h => by omega, fun _ => hs2⟩
    · have hs2 : (ISR_SPI_STC s b).1.state = Send := by
        rw [hs, if_pos (by omega)]; exact hst
      obtain ⟨i1, i2, i3⟩ := ih (ISR_SPI_STC s b).1 (ISR_w_index_lt s b hw) hs2
        (by omega) (by omega) (by omega)
      refine ⟨by omega, fun h => i2 (by omega), fun h => i3 (by omega)⟩

/-- Firing the handler once per byte of a non-empty `rx` when the count is
`rx.length` and the window `w_index .. w_index + rx.length` does not pass the
end of the array: the received bytes land in that window in order, the write
cursor ends behind it (at 0 when the window ends the array), the count is
zero and the state `Complete`. -/
theorem fireAll_window :
    ∀ (rx : List Nat) (s : spi_struct),
      rx ≠ [] → s.len = rx.length → s.w_index + rx.length ≤ SPI_BUFFER_SIZE →
      (fireAll rx s).1.state = Complete ∧
      (fireAll rx s).1.len = 0 ∧
      (fireAll rx s).1.r_index = s.r_index ∧
      (fireAll rx s).1.w_index =
        (if s.w_index + rx.length = SPI_BUFFER_SIZE then 0 else s.w_index + rx.length) ∧
      ∀ j, (fireAll rx s).1.data j =
        if s.w_index ≤ j ∧ j < s.w_index + rx.length then rx.getD (j - s.w_index) 0
        else s.data j := by
  intro rx
  induction rx with
  | nil => intro s h; exact absurd rfl h
  | cons b rest ih =>
    intro s _ hlen hwin
    simp only [List.length_cons, SPI_BUFFER_SIZE] at hlen hwin
    obtain ⟨hl, hr, hw, hd, hs⟩ := ISR_fields s b (by simp only [SPI_BUFFER_SIZE]; omega)
    have hm : (s.len + 255) % 256 = rest.length := by omega
    have hw1 : (s.w_index + 1) % 256 = s.w_index + 1 := by omega
    rw [hm] at hl hs
    rw [hw1] at hw
    simp only [SPI_BUFFER_SIZE] at hw
    simp only [fireAll, List.length_cons, SPI_BUFFER_SIZE]
    by_cases hrest : rest = []
    · subst hrest
      simp only [List.length_nil] at *
      simp only [fireAll]
      refine ⟨by rw [hs]; simp, hl, hr, ?_, ?_⟩
      · rw [hw]
        by_cases h10 : s.w_index + 1 = 10
        · simp [h10]
        · rw [if_neg (by omega), if_neg (by omega)]
      · intro j
        rw [hd]
        simp only [setByte]
        by_cases hj : j = s.w_index
        · subst hj; simp
        · rw [if_neg hj, if_neg (by omega)]
    · have hpos : 0 < rest.length := List.length_pos.mpr hrest
      have hw2 : (ISR_SPI_STC s b).1.w_index = s.w_index + 1 := by
        rw [hw, if_neg (by omega)]
      obtain ⟨i1, i2, i3, i4, i5⟩ := ih (ISR_SPI_STC s b).1 hrest hl
        (by simp only [SPI_BUFFER_SIZE]; omega)
      refine ⟨i1, i2, by rw [i3, hr], ?_, ?_⟩
      · rw [i4, hw2]
        simp only [SPI_BUFFER_SIZE]
        by_cases h10 : s.w_index + 1 + rest.length = 10
        · rw [if_pos h10, if_pos (by omega)]
        · rw [if_neg h10, if_neg (by omega)]; omega
      · intro j
        rw [i5 j, hw2, hd]
        simp only [setByte]
        by_cases hj : j = s.w_index
        · subst hj
          rw [if_neg (by omega), if_pos rfl, if_pos (by omega)]
          simp
        · by_cases hin : s.w_index + 1 ≤ j ∧ j < s.w_index + 1 + rest.length
          · rw [if_pos hin, if_pos (by omega)]
            have hsub : j - s.w_index = (j - (s.w_index + 1)) + 1 := by omega
            rw [hsub, List.getD_cons_succ]
          · rw [if_neg hin, if_neg hj, if_neg (by omega)]

/-! ## The read-out loop -/

/-- The loop of `SPI_read_data` copies at most as many bytes as its first
argument allows, and never lowers `num_bytes`. -/
theorem rdLoop_ret_bounds :
    ∀ (k : Nat) (s : spi_struct) (out : Nat → Nat) (num : Nat) (acc : List Nat),
      num ≤ (rdLoop k s out num acc).ret ∧ (rdLoop k s out num acc).ret ≤ num + k := by
  intro k
  induction k with
  | zero => intro s out num acc; simp [rdLoop]
  | succ k ih =>
    intro s out num acc
    simp only [rdLoop]
    split
    · constructor
      · exact Nat.le_trans (Nat.le_succ _) (ih _ _ _ _).1
      · exact Nat.le_trans (ih _ _ _ _).2 (by omega)
    · simp

/-- The loop of `SPI_read_data` leaves the state alone. -/
theorem rdLoop_state :
    ∀ (k : Nat) (s : spi_struct) (out : Nat → Nat) (num : Nat) (acc : List Nat),
      (rdLoop k s out num acc).s.state = s.state := by
  intro k
  induction k with
  | zero => intro s out num acc; rfl
  | succ k ih =>
    intro s out num acc
    simp only [rdLoop]
    split
    · rw [ih]
      split <;> rfl
    · rfl

/-- The loop of `SPI_read_data` leaves the count alone. -/
theorem rdLoop_len :
    ∀ (k : Nat) (s : spi_struct) (out : Nat → Nat) (num : Nat) (acc : List Nat),
      (rdLoop k s out num acc).s.len = s.len := by
  intro k
  induction k with
  | zero => intro s out num acc; rfl
  | succ k ih =>
    intro s out num acc
    simp only [rdLoop]
    split
    · rw [ih]
      split <;> rfl
    · rfl

/-- The loop of `SPI_read_data` leaves the write cursor below 10 when it was:
it keeps it or sets it to 0. -/
theorem rdLoop_w_index_lt :
    ∀ (k : Nat) (s : spi_struct) (out : Nat → Nat) (num : Nat) (acc : List Nat),
      s.w_index < SPI_BUFFER_SIZE → (rdLoop k s out num acc).s.w_index < SPI_BUFFER_SIZE := by
  intro k
  induction k with
  | zero => intro s out num acc h; exact h
  | succ k ih =>
    intro s out num acc h
    simp only [rdLoop]
    split
    · apply ih
      split
      · simp [SPI_BUFFER_SIZE]
      · exact h
    · exact h

/-- The loop of `SPI_read_data` when the `k` positions from the read cursor on
stay inside the array and the write cursor is not among them: it copies
exactly those `k` bytes, in order, to the offsets `num .. num + k` of the
caller's buffer, and keeps state and count. -/
theorem rdLoop_window :
    ∀ (k : Nat) (s : spi_struct) (out : Nat → Nat) (num : Nat) (acc : List Nat),
      s.r_index + k ≤ SPI_BUFFER_SIZE →
      (s.w_index < s.r_index ∨ s.r_index + k ≤ s.w_index) →
      (rdLoop k s out num acc).ret = num + k ∧
      (rdLoop k s out num acc).s.state = s.state ∧
      (rdLoop k s out num acc).s.len = s.len ∧
      ∀ j, (rdLoop k s out num acc).out j =
        if num ≤ j ∧ j < num + k then s.data (s.r_index + (j - num)) else out j := by
  intro k
  induction k with
  | zero =>
    intro s out num acc _ _
    refine ⟨rfl, rfl, rfl, ?_⟩
    intro j
    rw [if_neg (by omega)]
    rfl
  | succ k ih =>
    intro s out num acc hin hw
    simp only [SPI_BUFFER_SIZE] at hin
    have hne : s.r_index ≠ s.w_index := by omega
    have hr1 : (s.r_index + 1) % 256 = s.r_index + 1 := by omega
    have hld : loadData s s.r_index = s.data s.r_index :=
      loadData_lt s s.r_index (by simp only [SPI_BUFFER_SIZE]; omega)
    simp only [rdLoop, if_pos hne, hr1, hld, SPI_BUFFER_SIZE]
    by_cases h10 : s.r_index + 1 ≥ 10
    · have hk : k = 0 := by omega
      subst hk
      simp only [if_pos h10, rdLoop]
      refine ⟨trivial, trivial, trivial, ?_⟩
      intro j
      simp only [setByte]
      by_cases hj : j = num
      · subst hj; simp
      · rw [if_neg hj, if_neg (by omega)]
    · simp only [if_neg h10]
      obtain ⟨i1, i2, i3, i4⟩ := ih { s with r_index := s.r_index + 1 }
        (setByte out num (s.data s.r_index)) (num + 1) (acc ++ [s.r_index])
        (by simp only [SPI_BUFFER_SIZE]; omega)
        (by
          show s.w_index < s.r_index + 1 ∨ s.r_index + 1 + k ≤ s.w_index
          omega)
      refine ⟨by rw [i1]; omega, i2, i3, ?_⟩
      intro j
      rw [i4 j]
      simp only [setByte]
      by_cases hj : j = num
      · subst hj
        rw [if_neg (by omega), if_pos rfl, if_pos (by omega)]
        simp
      · by_cases hwin : num + 1 ≤ j ∧ j < num + 1 + k
        · rw [if_pos hwin, if_pos (by omega)]
          have hsub : s.r_index + 1 + (j - (num + 1)) = s.r_index + (j - num) := by omega
          rw [hsub]
        · rw [if_neg hwin, if_neg hj, if_neg (by omega)]

/-- A caller buffer that agrees with `rx` on the first `rx.length` offsets
reads back as `rx`. -/
theorem bytesOf_eq (out : Nat → Nat) (rx : List Nat)
    (h : ∀ j, j < rx.length → out j = rx.getD j 0) : bytesOf out rx.length = rx := by
  apply List.ext_getElem
  · simp [bytesOf]
  · intro n h1 h2
    simp only [bytesOf, List.getElem_map, List.getElem_range]
    rw [h n h2, List.getD_eq_getElem _ _ h2]

/-- An operation other than a release keeps an owned channel owned. -/
theorem step_keeps_owned (s : spi_struct) (op : Op) (hop : op.isRelease = false)
    (h : owned s) : owned (step s op) := by
  have hidle : s.state ≠ Idle := by
    simp only [owned, Idle, Attached, Send, Complete] at *
    omega
  cases op with
  | attach =>
    simp only [step, spi_request_attach, if_neg hidle]
    exact h
  | release => simp [Op.isRelease] at hop
  | enqueue len src =>
    simp only [step, owned, spi_TXRX_data_state]
    split
    · exact Or.inr (Or.inl rfl)
    · exact h
  | read out len =>
    simp only [step, owned, SPI_read_data]
    split
    · rw [rdLoop_state]; exact h
    · exact h
  | poll =>
    simp only [step, owned, spi_run_state]
    simp only [owned] at h
    split
    · exact h
    · split
      · exact h
      · split
        · split
          · exact Or.inr (Or.inr rfl)
          · exact h
        · split
          · exact h
          · rename_i h0 h1 h2 h3
            rcases h with h | h | h
            · exact absurd h h1
            · exact absurd h h2
            · exact absurd h h3
  | isComplete => exact h
  | isr spdr =>
    simp only [step, owned]
    rcases ISR_state s spdr with hk | hk
    · rw [hk]; exact h
    · exact Or.inr (Or.inr hk)

/-- A sequence of operations without a release keeps an owned channel owned. -/
theorem run_keeps_owned :
    ∀ (ops : List Op) (s : spi_struct),
      (∀ op ∈ ops, op.isRelease = false) → owned s → owned (run s ops) := by
  intro ops
  induction ops with
  | nil => intro s _ h; exact h
  | cons op rest ih =>
    intro s hnr h
    simp only [run, List.foldl_cons]
    exact ih (step s op) (fun o ho => hnr o (List.mem_cons_of_mem _ ho))
      (step_keeps_owned s op (hnr op (List.mem_cons_self _ _)) h)

/-! ## One transfer on an attached channel -/

/-- One transfer on an attached channel with count 0 whose window of `N`
bytes (`1 ≤ N ≤ 9`) does not pass the end of the array: the enqueue returns 0
and leaves state `Send`; after one firing per byte of `rx` the state is
`Complete`; the read-out with `len = N` returns `N` and hands back `rx` in
order; the release then returns 1 and leaves state `Idle`. -/
theorem transfer_read_window (s : spi_struct) (N : Nat) (d : Nat → Nat) (rx : List Nat)
    (out : Nat → Nat)
    (hst : s.state = Attached) (hlen : s.len = 0)
    (h1 : 1 ≤ N) (h9 : N < SPI_BUFFER_SIZE) (hnw : s.w_index + N ≤ SPI_BUFFER_SIZE)
    (hrx : rx.length = N) :
    (spi_TXRX_data s N d).ret = 0 ∧
    (spi_TXRX_data s N d).s.state = Send ∧
    (transfer s N d rx).1.state = Complete ∧
    (SPI_read_data (transfer s N d rx).1 out N).ret = N ∧
    bytesOf (SPI_read_data (transfer s N d rx).1 out N).out N = rx ∧
    (SPI_Release (SPI_read_data (transfer s N d rx).1 out N).s).2 = 1 ∧
    (SPI_Release (SPI_read_data (transfer s N d rx).1 out N).s).1.state = Idle := by
  subst hrx
  simp only [SPI_BUFFER_SIZE] at h9 hnw
  have hw : s.w_index < SPI_BUFFER_SIZE := by simp only [SPI_BUFFER_SIZE]; omega
  have hret := spi_TXRX_data_fits s rx.length d hw
    (by simp only [SPI_BUFFER_SIZE, hlen]; omega)
  have hcnt := (spi_TXRX_data_count s rx.length d hw).2
  have e3 := spi_TXRX_data_r_index s rx.length d (fun _ => by omega)
  have e4 := spi_TXRX_data_w_index s rx.length d hw
  have hN : (spi_TXRX_data s rx.length d).s.len = rx.length := by omega
  have hsend : (spi_TXRX_data s rx.length d).s.state = Send := by
    rw [spi_TXRX_data_state, if_pos ⟨Or.inl hst, by omega⟩]
  have hne : rx ≠ [] := by
    intro h; subst h; simp at h1
  obtain ⟨f1, f2, f3, f4, f5⟩ := fireAll_window rx (spi_TXRX_data s rx.length d).s hne hN
    (by simp only [SPI_BUFFER_SIZE]; omega)
  rw [e3] at f3
  rw [e4] at f4 f5
  simp only [SPI_BUFFER_SIZE] at f4
  have htr : (transfer s rx.length d rx).1 = (fireAll rx (spi_TXRX_data s rx.length d).s).1 := rfl
  have hrd : SPI_read_data (transfer s rx.length d rx).1 out rx.length =
      rdLoop rx.length (fireAll rx (spi_TXRX_data s rx.length d).s).1 out 0 [] := by
    simp only [htr, SPI_read_data]
    rw [if_pos f1]
  obtain ⟨g1, g2, g3, g4⟩ := rdLoop_window rx.length
    (fireAll rx (spi_TXRX_data s rx.length d).s).1 out 0 []
    (by rw [f3]; simp only [SPI_BUFFER_SIZE]; omega)
    (by
      rw [f3, f4]
      by_cases h10 : s.w_index + rx.length = 10
      · rw [if_pos h10]; omega
      · rw [if_neg h10]; omega)
  rw [← hrd] at g1 g2 g3 g4
  have hrel : (SPI_read_data (transfer s rx.length d rx).1 out rx.length).s.len = 0 ∧
      (SPI_read_data (transfer s rx.length d rx).1 out rx.length).s.state = Complete :=
    ⟨by rw [g3, f2], by rw [g2, f1]⟩
  refine ⟨by omega, hsend, by rw [htr]; exact f1, by omega, ?_, ?_, ?_⟩
  · apply bytesOf_eq
    intro j hj
    rw [g4 j, if_pos (by omega), f5, f3, if_pos (by omega)]
    congr 1
    omega
  · simp only [SPI_Release]
    rw [if_pos hrel]
  · simp only [SPI_Release]
    rw [if_pos hrel]

/-! ## Claims -/

set_option maxRecDepth 8192 in
/-- C1, as stated, fails: a channel that is `Idle` with nothing queued and
both cursors at 0 is attached, 10 bytes are enqueued and the handler fires 10
times delivering 1, 2, .., 10.  The write cursor is back at the read cursor,
so the read-out with `len = 10` copies nothing and returns 0, where the claim
wants 10 bytes equal to the received ones. -/
theorem roundtrip_fails_on_full_window :
    zeroChannel.state = Idle ∧ zeroChannel.len = 0 ∧
    zeroChannel.r_index < SPI_BUFFER_SIZE ∧ zeroChannel.w_index < SPI_BUFFER_SIZE ∧
    1 ≤ 10 ∧ 10 ≤ SPI_BUFFER_SIZE ∧ [1, 2, 3, 4, 5, 6, 7, 8, 9, 10].length = 10 ∧
    (spi_request_attach zeroChannel).2 = 1 ∧
    (roundTrip zeroChannel 10 (fun i => 200 + i) [1, 2, 3, 4, 5, 6, 7, 8, 9, 10]
      (fun _ => 0)).ret = 0 ∧
    bytesOf (roundTrip zeroChannel 10 (fun i => 200 + i) [1, 2, 3, 4, 5, 6, 7, 8, 9, 10]
      (fun _ => 0)).out 10 = [0, 0, 0, 0, 0, 0, 0, 0, 0, 0] := by
  decide

/-- C1, amended: round trip when the transfer window neither fills the array
nor passes its end.  For a channel in state `Idle` with count 0 and both
cursors below 10, `1 ≤ N ≤ 9` with `w_index + N ≤ 10`, any `N` data bytes and
any `N` received bytes `rx`: attach succeeds, and after the enqueue and `N`
firings of the handler the read-out with `len = N` returns `N`, the caller's
buffer holds `rx` in order, and the release succeeds. -/
theorem roundtrip_without_wrap (s : spi_struct) (N : Nat) (d : Nat → Nat) (rx : List Nat)
    (out : Nat → Nat)
    (hst : s.state = Idle) (hlen : s.len = 0)
    (_hr : s.r_index < SPI_BUFFER_SIZE) (_hw : s.w_index < SPI_BUFFER_SIZE)
    (h1 : 1 ≤ N) (h9 : N < SPI_BUFFER_SIZE) (hnw : s.w_index + N ≤ SPI_BUFFER_SIZE)
    (hrx : rx.length = N) :
    (spi_request_attach s).2 = 1 ∧
    (roundTrip s N d rx out).ret = N ∧
    bytesOf (roundTrip s N d rx out).out N = rx ∧
    (SPI_Release (roundTrip s N d rx out).s).2 = 1 := by
  have ha : spi_request_attach s = ({ s with state := Attached }, 1) := by
    simp [spi_request_attach, hst]
  obtain ⟨_, _, _, t4, t5, t6, _⟩ :=
    transfer_read_window { s with state := Attached } N d rx out rfl hlen h1 h9 hnw hrx
  unfold roundTrip
  rw [ha]
  exact ⟨rfl, t4, t5, t6⟩

/-- Instance of `roundtrip_without_wrap`: write cursor 7 and three bytes, a
window that ends exactly at the end of the array. -/
theorem roundtrip_without_wrap_witness :
    (idleChannel.state = Idle ∧ idleChannel.len = 0 ∧
      idleChannel.r_index < SPI_BUFFER_SIZE ∧ idleChannel.w_index < SPI_BUFFER_SIZE ∧
      1 ≤ 3 ∧ 3 < SPI_BUFFER_SIZE ∧ idleChannel.w_index + 3 ≤ SPI_BUFFER_SIZE ∧
      [170, 187, 204].length = 3) ∧
    ((spi_request_attach idleChannel).2 = 1 ∧
      (roundTrip idleChannel 3 (fun i => 200 + i) [170, 187, 204] (fun _ => 0)).ret = 3 ∧
      bytesOf (roundTrip idleChannel 3 (fun i => 200 + i) [170, 187, 204] (fun _ => 0)).out 3
        = [170, 187, 204] ∧
      (SPI_Release
        (roundTrip idleChannel 3 (fun i => 200 + i) [170, 187, 204] (fun _ => 0)).s).2 = 1) :=
  ⟨by decide,
    roundtrip_without_wrap idleChannel 3 (fun i => 200 + i) [170, 187, 204] (fun _ => 0)
      rfl rfl (by decide) (by decide) (by decide) (by decide) (by decide) rfl⟩

/-- The round trip on a window that passes the end of the array: idle
channel with write cursor 8 and slot `i` holding `100 + i`, four bytes, the
handler delivering 1, 2, 3, 4.  The received bytes land in positions 8, 9, 0,
1, but the read-out copies positions 8, 9, 10, 11; the last two are the
bytes of the fields `r_index` and `w_index`, 10 and 0 at that moment. -/
theorem roundtrip_on_wrapping_window :
    (roundTrip { state := Idle, data := fun i => 100 + i, r_index := 8, w_index := 8, len := 0 }
      4 (fun i => 200 + i) [1, 2, 3, 4] (fun _ => 0)).ret = 4 ∧
    bytesOf (roundTrip
      { state := Idle, data := fun i => 100 + i, r_index := 8, w_index := 8, len := 0 }
      4 (fun i => 200 + i) [1, 2, 3, 4] (fun _ => 0)).out 4 = [1, 2, 10, 0] ∧
    (roundTrip { state := Idle, data := fun i => 100 + i, r_index := 8, w_index := 8, len := 0 }
      4 (fun i => 200 + i) [1, 2, 3, 4] (fun _ => 0)).touched = [8, 9, 10, 11] := by
  decide

/-- C2 fails on the code: 12 bytes enqueued into an empty channel (count 0,
both cursors 0).  The loop guard is `spi_data.len <= SPI_BUFFER_SIZE`, so it
still runs with the count at 10: the call leaves the count at 11 and returns
1, where the claim wants 10 and 2.  The eleventh byte is stored to position 1,
over the first one. -/
theorem enqueue_12_into_empty_overfills :
    zeroChannel.r_index < SPI_BUFFER_SIZE ∧ zeroChannel.w_index < SPI_BUFFER_SIZE ∧
    zeroChannel.len ≤ SPI_BUFFER_SIZE ∧
    (spi_TXRX_data zeroChannel 12 (fun i => 100 + i)).s.len = 11 ∧
    (spi_TXRX_data zeroChannel 12 (fun i => 100 + i)).ret = 1 ∧
    (spi_TXRX_data zeroChannel 12 (fun i => 100 + i)).touched =
      [1, 2, 3, 4, 5, 6, 7, 8, 9, 0, 1] ∧
    (spi_TXRX_data zeroChannel 12 (fun i => 100 + i)).s.data 1 = 110 := by
  decide

/-- C3 fails on the code: an attached channel with count 0, write cursor 0 and
an all-zero array, three bytes 17, 34, 51 enqueued, three firings.  The loop
increments `temp` before it stores, so the bytes go to positions 1, 2, 3 and
the enqueue writes the old content of position 0 to `SPDR`; the firings then
write 17 and 34.  The register sees 0, 17, 34 where the claim wants
17, 34, 51, and the last byte is never written to it. -/
theorem enqueue_sends_stale_byte_first :
    attachedChannel.state = Attached ∧ attachedChannel.len = 0 ∧
    attachedChannel.w_index < SPI_BUFFER_SIZE ∧
    (spi_TXRX_data attachedChannel 3 (fun i => [17, 34, 51].getD i 0)).spdr = some 0 ∧
    (spi_TXRX_data attachedChannel 3 (fun i => [17, 34, 51].getD i 0)).touched = [1, 2, 3, 0] ∧
    (transfer attachedChannel 3 (fun i => [17, 34, 51].getD i 0) [1, 2, 3]).2 = [0, 17, 34] := by
  decide

/-- C4: `spi_request_attach` returns 1 exactly when the state before the call
is `Idle`; then the state becomes `Attached`; otherwise it returns 0 and the
state is kept; array, both cursors and the count are kept in both cases. -/
theorem attach_contract (s : spi_struct) :
    ((spi_request_attach s).2 = 1 ↔ s.state = Idle) ∧
    (spi_request_attach s).2 = (if s.state = Idle then 1 else 0) ∧
    (spi_request_attach s).1.state = (if s.state = Idle then Attached else s.state) ∧
    (spi_request_attach s).1.data = s.data ∧
    (spi_request_attach s).1.r_index = s.r_index ∧
    (spi_request_attach s).1.w_index = s.w_index ∧
    (spi_request_attach s).1.len = s.len := by
  simp only [spi_request_attach]
  split <;> simp_all

/-- C5: `SPI_Release` returns 1 exactly when the state before the call is
`Complete` and the count is 0; then the state becomes `Idle` and the rest of
the record is kept; otherwise it returns 0 and the whole record is kept. -/
theorem release_contract (s : spi_struct) :
    ((SPI_Release s).2 = 1 ↔ (s.state = Complete ∧ s.len = 0)) ∧
    (SPI_Release s).2 = (if s.state = Complete ∧ s.len = 0 then 1 else 0) ∧
    (SPI_Release s).1 =
      (if s.state = Complete ∧ s.len = 0 then { s with state := Idle } else s) := by
  simp only [SPI_Release]
  by_cases h : s.len = 0 ∧ s.state = Complete
  · rw [if_pos h, if_pos ⟨h.2, h.1⟩]
    simp [h.1, h.2]
  · have h2 : ¬ (s.state = Complete ∧ s.len = 0) := fun k => h ⟨k.2, k.1⟩
    rw [if_neg h, if_neg h2]
    simp [h2]

/-- C6 fails on the code: a `Complete` channel with read cursor 8 and write
cursor 2 (four unread bytes, at positions 8, 9, 0, 1), read-out with
`len = 4`.  When the read cursor reaches 10 the code zeroes the write cursor
and not the read cursor, so the loop goes on past the array: it copies
positions 8, 9, 10, 11, leaves the read cursor at 12 and the write cursor at
0, where the claim wants positions 8, 9, 0, 1, read cursor 2 and the write
cursor kept at 2.  Positions 10 and 11 are the bytes of the fields `r_index`
and `w_index`, which hold 10 and 0 when they are loaded: the caller gets
108, 109, 10, 0 and not slots 0 and 1 of the array. -/
theorem read_wraps_the_wrong_cursor :
    wrappedChannel.state = Complete ∧
    wrappedChannel.r_index < SPI_BUFFER_SIZE ∧ wrappedChannel.w_index < SPI_BUFFER_SIZE ∧
    (SPI_read_data wrappedChannel (fun _ => 0) 4).ret = 4 ∧
    (SPI_read_data wrappedChannel (fun _ => 0) 4).touched = [8, 9, 10, 11] ∧
    bytesOf (SPI_read_data wrappedChannel (fun _ => 0) 4).out 4 = [108, 109, 10, 0] ∧
    bytesOf (SPI_read_data wrappedChannel (fun _ => 0) 4).out 4 ≠
      [wrappedChannel.data 8, wrappedChannel.data 9, wrappedChannel.data 0,
        wrappedChannel.data 1] ∧
    (SPI_read_data wrappedChannel (fun _ => 0) 4).s.r_index = 12 ∧
    (SPI_read_data wrappedChannel (fun _ => 0) 4).s.w_index = 0 := by
  decide

/-- C7: `SPI_read_data` never returns more than `len`; and when the state is
not `Complete` it returns 0 and keeps the record and the caller's buffer. -/
theorem read_bounds (s : spi_struct) (out : Nat → Nat) (len : Nat) :
    (SPI_read_data s out len).ret ≤ len ∧
    (s.state ≠ Complete →
      (SPI_read_data s out len).ret = 0 ∧
      (SPI_read_data s out len).s = s ∧
      (SPI_read_data s out len).out = out) := by
  simp only [SPI_read_data]
  split
  · rename_i h
    refine ⟨?_, fun hn => absurd h hn⟩
    have hb := (rdLoop_ret_bounds len s out 0 []).2
    omega
  · exact ⟨Nat.zero_le _, fun _ => ⟨rfl, rfl, rfl⟩⟩

/-- Instance of `read_bounds`: a read-out on an attached channel returns 0 and
changes nothing. -/
theorem read_bounds_witness :
    attachedChannel.state ≠ Complete ∧
    (SPI_read_data attachedChannel (fun _ => 5) 4).ret ≤ 4 ∧
    (SPI_read_data attachedChannel (fun _ => 5) 4).ret = 0 ∧
    (SPI_read_data attachedChannel (fun _ => 5) 4).s = attachedChannel ∧
    (SPI_read_data attachedChannel (fun _ => 5) 4).out = (fun _ => 5) :=
  have h := read_bounds attachedChannel (fun _ => 5) 4
  ⟨by decide, h.1, h.2 (by decide)⟩

/-- C8: on an attached channel with count 0 and write cursor below 10, an
enqueue of `N` bytes (`1 ≤ N ≤ 10`) followed by `k ≤ N` firings of the handler
(`k` is the length of `rx`) leaves the count at `N - k`; the state is `Send`
while `k < N` and `Complete`, with count 0, when `k = N`. -/
theorem enqueue_then_fire_counts (s : spi_struct) (N : Nat) (d : Nat → Nat) (rx : List Nat)
    (hst : s.state = Attached) (hlen : s.len = 0) (_hw : s.w_index < SPI_BUFFER_SIZE)
    (h1 : 1 ≤ N) (h10 : N ≤ SPI_BUFFER_SIZE) (hk : rx.length ≤ N) :
    (transfer s N d rx).1.len = N - rx.length ∧
    (transfer s N d rx).1.state = (if rx.length = N then Complete else Send) := by
  simp only [SPI_BUFFER_SIZE] at h10
  have hret := spi_TXRX_data_fits s N d _hw (by simp only [SPI_BUFFER_SIZE, hlen]; omega)
  have hcnt := (spi_TXRX_data_count s N d _hw).2
  have hN : (spi_TXRX_data s N d).s.len = N := by omega
  have hsend : (spi_TXRX_data s N d).s.state = Send := by
    rw [spi_TXRX_data_state, if_pos ⟨Or.inl hst, by omega⟩]
  obtain ⟨c1, c2, c3⟩ := fireAll_count rx (spi_TXRX_data s N d).s
    (by rw [spi_TXRX_data_w_index s N d _hw]; exact _hw) hsend
    (by omega) (by omega) (by omega)
  simp only [transfer]
  rw [hN] at c1 c2 c3
  refine ⟨c1, ?_⟩
  by_cases hkN : rx.length = N
  · rw [if_pos hkN]; exact c3 hkN
  · rw [if_neg hkN]; exact c2 (by omega)

/-- Instance of `enqueue_then_fire_counts`: three bytes enqueued and three
firings, count 0 and state `Complete`. -/
theorem enqueue_then_fire_counts_witness :
    (attachedChannel.state = Attached ∧ attachedChannel.len = 0 ∧
      attachedChannel.w_index < SPI_BUFFER_SIZE ∧ 1 ≤ 3 ∧ 3 ≤ SPI_BUFFER_SIZE ∧
      [9, 8, 7].length ≤ 3) ∧
    ((transfer attachedChannel 3 (fun i => 40 + i) [9, 8, 7]).1.len = 3 - [9, 8, 7].length ∧
      (transfer attachedChannel 3 (fun i => 40 + i) [9, 8, 7]).1.state =
        (if [9, 8, 7].length = 3 then Complete else Send)) :=
  ⟨by decide,
    enqueue_then_fire_counts attachedChannel 3 (fun i => 40 + i) [9, 8, 7]
      rfl rfl (by decide) (by decide) (by decide) (by decide)⟩

/-- C10: exclusive ownership.  For a channel holding one of the four valid
states on which `spi_request_attach` returned 1, and any finite sequence of
enqueues, read-outs, poll steps, status queries, handler firings and further
attaches that holds no release, one more `spi_request_attach` returns 0 and
keeps the state; in particular a second attach right after the first returns
0. -/
theorem exclusive_ownership (s : spi_struct) (ops : List Op)
    (_hv : validState s) (hok : (spi_request_attach s).2 = 1)
    (hnr : ∀ op ∈ ops, op.isRelease = false) :
    (spi_request_attach (run (spi_request_attach s).1 ops)).2 = 0 ∧
    (spi_request_attach (run (spi_request_attach s).1 ops)).1.state =
      (run (spi_request_attach s).1 ops).state ∧
    (spi_request_attach (spi_request_attach s).1).2 = 0 := by
  have hidle : s.state = Idle := by
    simp only [spi_request_attach] at hok
    by_cases h : s.state = Idle
    · exact h
    · rw [if_neg h] at hok
      simp at hok
  have hown : owned (spi_request_attach s).1 := by
    simp only [spi_request_attach, if_pos hidle]
    exact Or.inl rfl
  have key : ∀ c : spi_struct, owned c →
      (spi_request_attach c).2 = 0 ∧ (spi_request_attach c).1.state = c.state := by
    intro c hc
    have hne : c.state ≠ Idle := by
      simp only [owned, Idle, Attached, Send, Complete] at *
      omega
    simp only [spi_request_attach, if_neg hne]
    exact ⟨trivial, trivial⟩
  obtain ⟨k1, k2⟩ := key _ (run_keeps_owned ops _ hnr hown)
  exact ⟨k1, k2, (key _ hown).1⟩

/-- Instance of `exclusive_ownership`: from the zeroed idle channel, an
enqueue, two firings, a poll step, a read-out, a status query and an attach
later, the peripheral is still taken. -/
theorem exclusive_ownership_witness :
    (validState zeroChannel ∧ (spi_request_attach zeroChannel).2 = 1 ∧
      (∀ op ∈ sampleOps, op.isRelease = false)) ∧
    ((spi_request_attach (run (spi_request_attach zeroChannel).1 sampleOps)).2 = 0 ∧
      (spi_request_attach (run (spi_request_attach zeroChannel).1 sampleOps)).1.state =
        (run (spi_request_attach zeroChannel).1 sampleOps).state ∧
      (spi_request_attach (spi_request_attach zeroChannel).1).2 = 0) :=
  ⟨⟨Or.inl rfl, rfl, by decide⟩,
    exclusive_ownership zeroChannel sampleOps (Or.inl rfl) rfl (by decide)⟩

/-- C11: the end-to-end scenario.  From `spi_init` (whatever the record held
before), the attach returns 1; an enqueue of any 4 bytes returns 0 and leaves
state `Send`; after 4 firings of the handler delivering 0xAA, 0xBB, 0xCC,
0xDD the state is `Complete`; the read-out with `len = 4` returns 4 and the
caller's buffer holds 0xAA, 0xBB, 0xCC, 0xDD; the release returns 1 and the
state is `Idle`. -/
theorem end_to_end_scenario (s0 : spi_struct) (d : Nat → Nat) (out : Nat → Nat) :
    (spi_request_attach (spi_init s0)).2 = 1 ∧
    (spi_TXRX_data (spi_request_attach (spi_init s0)).1 4 d).ret = 0 ∧
    (spi_TXRX_data (spi_request_attach (spi_init s0)).1 4 d).s.state = Send ∧
    (transfer (spi_request_attach (spi_init s0)).1 4 d [0xAA, 0xBB, 0xCC, 0xDD]).1.state
      = Complete ∧
    (roundTrip (spi_init s0) 4 d [0xAA, 0xBB, 0xCC, 0xDD] out).ret = 4 ∧
    bytesOf (roundTrip (spi_init s0) 4 d [0xAA, 0xBB, 0xCC, 0xDD] out).out 4
      = [0xAA, 0xBB, 0xCC, 0xDD] ∧
    (SPI_Release (roundTrip (spi_init s0) 4 d [0xAA, 0xBB, 0xCC, 0xDD] out).s).2 = 1 ∧
    (SPI_Release (roundTrip (spi_init s0) 4 d [0xAA, 0xBB, 0xCC, 0xDD] out).s).1.state
      = Idle := by
  have hw : (spi_request_attach (spi_init s0)).1.w_index + 4 ≤ SPI_BUFFER_SIZE := by
    show 0 + 4 ≤ 10
    decide
  have h := transfer_read_window (spi_request_attach (spi_init s0)).1 4 d
    [0xAA, 0xBB, 0xCC, 0xDD] out rfl rfl (by decide) (by decide) hw rfl
  unfold roundTrip
  exact ⟨rfl, h⟩

/-! ## The count in reachable records -/

/-- One operation keeps `countInv`, provided a firing of the handler happens
in state `Send`. -/
theorem step_keeps_countInv (s : spi_struct) (op : Op)
    (hfire : op.isFiring = true → s.state = Send) (h : countInv s) :
    countInv (step s op) := by
  obtain ⟨hw, h11, hsend, hcomp⟩ := h
  cases op with
  | attach =>
    simp only [step, spi_request_attach]
    split
    · rename_i hi
      refine ⟨hw, h11, fun k => ?_, fun k => ?_⟩
      · simp [Attached, Send] at k
      · simp [Attached, Complete] at k
    · exact ⟨hw, h11, hsend, hcomp⟩
  | release =>
    simp only [step, SPI_Release]
    split
    · refine ⟨hw, h11, fun k => ?_, fun k => ?_⟩
      · simp [Idle, Send] at k
      · simp [Idle, Complete] at k
    · exact ⟨hw, h11, hsend, hcomp⟩
  | enqueue len src =>
    have hle := spi_TXRX_data_len_le s len src hw h11
    have hmono := (spi_TXRX_data_count s len src hw).1
    have hwi := spi_TXRX_data_w_index s len src hw
    have hst := spi_TXRX_data_state s len src
    simp only [step, countInv]
    refine ⟨by rw [hwi]; exact hw, hle, fun k => ?_, fun k => ?_⟩
    · by_cases hc : (s.state = Attached ∨ s.state = Complete) ∧ (spi_TXRX_data s len src).s.len > 0
      · exact hc.2
      · rw [if_neg hc] at hst
        have := hsend (hst ▸ k)
        omega
    · by_cases hc : (s.state = Attached ∨ s.state = Complete) ∧ (spi_TXRX_data s len src).s.len > 0
      · rw [if_pos hc] at hst
        rw [hst] at k
        simp [Send, Complete] at k
      · rw [if_neg hc] at hst
        have hsc : s.state = Complete := hst ▸ k
        have : ¬ (spi_TXRX_data s len src).s.len > 0 := fun hp => hc ⟨Or.inr hsc, hp⟩
        omega
  | read out len =>
    simp only [step, SPI_read_data]
    split
    · simp only [countInv, rdLoop_len, rdLoop_state]
      exact ⟨rdLoop_w_index_lt _ _ _ _ _ hw, h11, hsend, hcomp⟩
    · exact ⟨hw, h11, hsend, hcomp⟩
  | poll =>
    simp only [step, spi_run_state]
    split
    · exact ⟨hw, h11, hsend, hcomp⟩
    · split
      · exact ⟨hw, h11, hsend, hcomp⟩
      · split
        · split
          · rename_i hz
            refine ⟨hw, h11, fun k => ?_, fun _ => hz⟩
            simp [Send, Complete] at k
          · exact ⟨hw, h11, hsend, hcomp⟩
        · split
          · exact ⟨hw, h11, hsend, hcomp⟩
          · refine ⟨hw, h11, fun k => ?_, fun k => ?_⟩
            · simp [Idle, Send] at k
            · simp [Idle, Complete] at k
  | isComplete => exact ⟨hw, h11, hsend, hcomp⟩
  | isr b =>
    have hs : s.state = Send := hfire rfl
    have h1 := hsend hs
    obtain ⟨hl, _, _, _, hst⟩ := ISR_fields s b hw
    have hw' := ISR_w_index_lt s b hw
    simp only [SPI_BUFFER_SIZE] at h11 hw'
    have hm : (s.len + 255) % 256 = s.len - 1 := by omega
    rw [hm] at hl hst
    simp only [step, countInv, SPI_BUFFER_SIZE]
    refine ⟨hw', by omega, fun k => ?_, fun k => ?_⟩
    · by_cases hp : s.len - 1 > 0
      · omega
      · rw [if_neg hp] at hst
        rw [hst] at k
        simp [Send, Complete] at k
    · by_cases hp : s.len - 1 > 0
      · rw [if_pos hp, hs] at hst
        rw [hst] at k
        simp [Send, Complete] at k
      · omega

/-- A sequence of operations that fires the handler only in state `Send`
keeps `countInv`. -/
theorem run_keeps_countInv :
    ∀ (ops : List Op) (s : spi_struct),
      legal s ops = true → countInv s → countInv (run s ops) := by
  intro ops
  induction ops with
  | nil => intro s _ h; exact h
  | cons op rest ih =>
    intro s hl h
    simp only [legal, Bool.and_eq_true, Bool.or_eq_true, Bool.not_eq_true',
      decide_eq_true_eq] at hl
    simp only [run, List.foldl_cons]
    apply ih (step s op) hl.2
    apply step_keeps_countInv s op _ h
    intro hf
    rcases hl.1 with h0 | h0
    · rw [hf] at h0; exact absurd h0 (by decide)
    · exact h0

/-- The record `spi_init` leaves satisfies `countInv`. -/
theorem spi_init_countInv (s0 : spi_struct) : countInv (spi_init s0) := by
  refine ⟨by show 0 < 10; decide, Nat.zero_le _, fun k => ?_, fun _ => rfl⟩
  simp [spi_init, Idle, Send] at k

/-! ## Claims on reachable records -/

set_option maxRecDepth 8192 in
/-- C12 fails on the code: from `spi_init` a client attaches, sends 9 bytes
(write cursor 9), queues one more (read cursor set to 9), the transfer
completes (write cursor wraps to 0) and the client reads one byte.  The
handler fires only in state `Send`.  The read-out increments the read cursor
to 10 and, instead of wrapping it, zeroes the write cursor: the read cursor
is left at 10, outside the array. -/
theorem read_index_leaves_range :
    legal (spi_init zeroChannel) wrapOps = true ∧
    (run (spi_init zeroChannel) wrapOps).state = Complete ∧
    (run (spi_init zeroChannel) wrapOps).r_index = 10 ∧
    (run (spi_init zeroChannel) wrapOps).w_index = 0 ∧
    ¬ (run (spi_init zeroChannel) wrapOps).r_index < SPI_BUFFER_SIZE := by
  decide

/-- C13: in every record reached from `spi_init` by attaches, releases,
enqueues, read-outs, poll steps, status queries and firings of the handler,
the handler firing only in state `Send`, state `Complete` comes with count
0. -/
theorem complete_implies_no_pending (s0 : spi_struct) (ops : List Op)
    (hl : legal (spi_init s0) ops = true)
    (hc : (run (spi_init s0) ops).state = Complete) :
    (run (spi_init s0) ops).len = 0 :=
  (run_keeps_countInv ops (spi_init s0) hl (spi_init_countInv s0)).2.2.2 hc

set_option maxRecDepth 8192 in
/-- Instance of `complete_implies_no_pending`: two bytes sent and both
transfers completed. -/
theorem complete_implies_no_pending_witness :
    (legal (spi_init zeroChannel) completeOps = true ∧
      (run (spi_init zeroChannel) completeOps).state = Complete) ∧
    (run (spi_init zeroChannel) completeOps).len = 0 :=
  ⟨by decide,
    complete_implies_no_pending zeroChannel completeOps (by decide) (by decide)⟩

/-- C18: in every record reached from `spi_init` by attaches, releases,
enqueues, read-outs, poll steps, status queries and firings of the handler,
the handler firing only in state `Send`, state `Send` comes with a count of
at least 1; so a firing of the handler there lowers the count by exactly one,
without wrapping. -/
theorem sending_implies_pending (s0 : spi_struct) (ops : List Op)
    (hl : legal (spi_init s0) ops = true)
    (hs : (run (spi_init s0) ops).state = Send) :
    1 ≤ (run (spi_init s0) ops).len ∧
    ∀ b, (ISR_SPI_STC (run (spi_init s0) ops) b).1.len + 1 = (run (spi_init s0) ops).len := by
  obtain ⟨hw, h11, hsend, _⟩ :=
    run_keeps_countInv ops (spi_init s0) hl (spi_init_countInv s0)
  have h1 := hsend hs
  refine ⟨h1, fun b => ?_⟩
  rw [(ISR_fields _ b hw).1]
  simp only [SPI_BUFFER_SIZE] at h11
  omega

set_option maxRecDepth 8192 in
/-- Instance of `sending_implies_pending`: two bytes queued, one transfer
completed, one byte left. -/
theorem sending_implies_pending_witness :
    (legal (spi_init zeroChannel) sendingOps = true ∧
      (run (spi_init zeroChannel) sendingOps).state = Send) ∧
    (1 ≤ (run (spi_init zeroChannel) sendingOps).len ∧
      ∀ b, (ISR_SPI_STC (run (spi_init zeroChannel) sendingOps) b).1.len + 1 =
        (run (spi_init zeroChannel) sendingOps).len) :=
  ⟨by decide,
    sending_implies_pending zeroChannel sendingOps (by decide) (by decide)⟩

/-! ## Claims on single calls -/

/-- C15: one firing of the handler on a record with write cursor below 10 and
a count of at least 1 (a `uint8_t`, so below 256).  The received byte `b` is
stored at `w_index`, every other slot and the read cursor are kept, the write
cursor becomes `(w_index + 1) % 10` and the count goes down by exactly one.
If the new count is positive the handler writes the slot at the new write
cursor to `SPDR` and keeps the state; otherwise it sets the state to
`Complete` and writes nothing to `SPDR`. -/
theorem handler_step (s : spi_struct) (b : Nat)
    (hw : s.w_index < SPI_BUFFER_SIZE) (h1 : 1 ≤ s.len) (h256 : s.len < 256) :
    (ISR_SPI_STC s b).1.data s.w_index = b ∧
    (∀ j, j ≠ s.w_index → (ISR_SPI_STC s b).1.data j = s.data j) ∧
    (ISR_SPI_STC s b).1.w_index = (s.w_index + 1) % SPI_BUFFER_SIZE ∧
    (ISR_SPI_STC s b).1.len + 1 = s.len ∧
    (ISR_SPI_STC s b).1.r_index = s.r_index ∧
    (0 < (ISR_SPI_STC s b).1.len →
      (ISR_SPI_STC s b).2 = some ((ISR_SPI_STC s b).1.data (ISR_SPI_STC s b).1.w_index) ∧
      (ISR_SPI_STC s b).1.state = s.state) ∧
    ((ISR_SPI_STC s b).1.len = 0 →
      (ISR_SPI_STC s b).1.state = Complete ∧ (ISR_SPI_STC s b).2 = none) := by
  obtain ⟨hl, hr, hwi, hd, hst⟩ := ISR_fields s b hw
  have hsp := ISR_spdr s b hw
  simp only [SPI_BUFFER_SIZE] at hw hwi ⊢
  have hm : (s.len + 255) % 256 = s.len - 1 := by omega
  rw [hm] at hl hst
  refine ⟨by rw [hd]; simp [setByte], fun j hj => by rw [hd]; simp [setByte, hj], ?_,
    by omega, hr, fun hp => ?_, fun hz => ?_⟩
  · rw [hwi]
    by_cases h9 : s.w_index = 9
    · rw [h9]; rfl
    · have e1 : (s.w_index + 1) % 256 = s.w_index + 1 := by omega
      rw [e1, if_neg (by omega)]
      omega
  · refine ⟨?_, by rw [hst, if_pos (by omega)]⟩
    rw [hsp, hm, if_pos (by omega)]
  · refine ⟨by rw [hst, if_neg (by omega)], ?_⟩
    rw [hsp, hm, if_neg (by omega)]

/-- Instances of `handler_step`: with write cursor 9 and count 2 the cursor
wraps to 0, the count becomes 1 and slot 0 goes to `SPDR`; with count 1 the
state becomes `Complete` and nothing is written. -/
theorem handler_step_witness :
    (sendingAtNine.w_index < SPI_BUFFER_SIZE ∧ 1 ≤ sendingAtNine.len ∧
      sendingAtNine.len < 256) ∧
    ((ISR_SPI_STC sendingAtNine 77).1.data 9 = 77 ∧
      (ISR_SPI_STC sendingAtNine 77).1.w_index = 0 ∧
      (ISR_SPI_STC sendingAtNine 77).1.len = 1 ∧
      (ISR_SPI_STC sendingAtNine 77).2 = some 100 ∧
      (ISR_SPI_STC sendingAtNine 77).1.state = Send) ∧
    ((ISR_SPI_STC oneInFlight 77).1.state = Complete ∧
      (ISR_SPI_STC oneInFlight 77).2 = none) :=
  have h := handler_step sendingAtNine 77 (by decide) (by decide) (by decide)
  have hlen : (ISR_SPI_STC sendingAtNine 77).1.len = 1 := by
    have := h.2.2.2.1
    have e : sendingAtNine.len = 2 := rfl
    omega
  have h2 := handler_step oneInFlight 77 (by decide) (by decide) (by decide)
  have hlen2 : (ISR_SPI_STC oneInFlight 77).1.len = 0 := by
    have := h2.2.2.2.1
    have e : oneInFlight.len = 1 := rfl
    omega
  ⟨by decide,
    ⟨h.1, h.2.2.1, hlen,
      by rw [(h.2.2.2.2.2.1 (by omega)).1]; rfl,
      (h.2.2.2.2.2.1 (by omega)).2⟩,
    h2.2.2.2.2.2.2 hlen2⟩

/-- C17: `spi_run_state` returns 0 and keeps the array, both cursors and the
count; the state becomes `Complete` when it was `Send` with count 0, `Idle`
when the stored value is none of the four enumerators, and is kept
otherwise.  The function takes no byte from `SPDR` and hands none to it. -/
theorem poll_step (s : spi_struct) :
    (spi_run_state s).2 = 0 ∧
    (spi_run_state s).1.data = s.data ∧
    (spi_run_state s).1.r_index = s.r_index ∧
    (spi_run_state s).1.w_index = s.w_index ∧
    (spi_run_state s).1.len = s.len ∧
    (spi_run_state s).1.state =
      (if s.state = Send ∧ s.len = 0 then Complete
       else if s.state = Idle ∨ s.state = Attached ∨ s.state = Send ∨ s.state = Complete
       then s.state else Idle) := by
  simp only [spi_run_state, Idle, Attached, Send, Complete]
  by_cases h0 : s.state = 0
  · simp [h0]
  · by_cases h1 : s.state = 1
    · simp [h1]
    · by_cases h2 : s.state = 2
      · by_cases hz : s.len = 0 <;> simp [h2, hz]
      · by_cases h3 : s.state = 3
        · simp [h3]
        · simp [h0, h1, h2, h3]

/-! ## Claims on the enqueue -/

/-- With the identity at the point of preemption, `spi_TXRX_data_preempted`
is `spi_TXRX_data`. -/
theorem spi_TXRX_data_preempted_id (s : spi_struct) (len : Nat) (src : Nat → Nat) :
    spi_TXRX_data_preempted id s len src = spi_TXRX_data s len src := by
  cases len with
  | zero => rfl
  | succ n =>
    show _ = txFinish (txLoop src (n + 1) { s with r_index := s.w_index }
      ((s.w_index + s.len) % 256) 0 [])
    simp only [spi_TXRX_data_preempted, txLoop]
    split <;> rfl

/-- C14 fails on the code: `spi_TXRX_data` has only comments where the
handler should be masked, so the handler can run inside its bookkeeping.  On
a sending record with one byte in flight, an enqueue of one byte whose first
`spi_data.len++` is split by a firing of the handler: the handler's decrement
is overwritten by the store of the increment, and the call ends with count 2
for one byte outstanding.  Handler after the call, or handler before the
call, both end with count 1. -/
theorem handler_preempts_enqueue :
    oneInFlight.state = Send ∧ oneInFlight.len = 1 ∧
    (spi_TXRX_data_preempted (fun c => (ISR_SPI_STC c 7).1) oneInFlight 1
      (fun _ => 85)).s.len = 2 ∧
    (ISR_SPI_STC (spi_TXRX_data oneInFlight 1 (fun _ => 85)).s 7).1.len = 1 ∧
    (spi_TXRX_data (ISR_SPI_STC oneInFlight 7).1 1 (fun _ => 85)).s.len = 1 := by
  decide

/-- C16, as stated, fails: an attached record that already counts three
unsent bytes, and an enqueue with `len = 0`.  No byte is queued by the call
(it returns 0 of 0 and the count stays 3), yet the state becomes `Send` and
slot 0 is written to `SPDR`. -/
theorem transfer_starts_without_new_bytes :
    attachedPending.state = Attached ∧
    attachedPending.r_index < SPI_BUFFER_SIZE ∧ attachedPending.w_index < SPI_BUFFER_SIZE ∧
    (spi_TXRX_data attachedPending 0 (fun _ => 85)).ret = 0 ∧
    (spi_TXRX_data attachedPending 0 (fun _ => 85)).s.len = attachedPending.len ∧
    (spi_TXRX_data attachedPending 0 (fun _ => 85)).touched = [0] ∧
    (spi_TXRX_data attachedPending 0 (fun _ => 85)).s.state = Send ∧
    (spi_TXRX_data attachedPending 0 (fun _ => 85)).spdr = some 100 := by
  decide

/-- C16, amended: for a record in state `Attached` or `Complete` with both
cursors below 10, `spi_TXRX_data` sets the state to `Send` and writes the
slot at the write cursor to `SPDR` exactly when the count it leaves is
positive; when that count is 0 the state is kept and `SPDR` is not written.
When the count was 0 before the call, the count it leaves is positive exactly
when the call queued at least one byte. -/
theorem transfer_start_guard (s : spi_struct) (count : Nat) (d : Nat → Nat)
    (hst : s.state = Attached ∨ s.state = Complete)
    (_hr : s.r_index < SPI_BUFFER_SIZE) (_hw : s.w_index < SPI_BUFFER_SIZE) :
    (((spi_TXRX_data s count d).s.state = Send ∧
        (spi_TXRX_data s count d).spdr = some ((spi_TXRX_data s count d).s.data s.w_index))
      ↔ 0 < (spi_TXRX_data s count d).s.len) ∧
    ((spi_TXRX_data s count d).s.len = 0 →
      (spi_TXRX_data s count d).s.state = s.state ∧ (spi_TXRX_data s count d).spdr = none) ∧
    (s.len = 0 →
      (0 < (spi_TXRX_data s count d).s.len ↔ 1 ≤ count - (spi_TXRX_data s count d).ret)) := by
  have hstate := spi_TXRX_data_state s count d
  have hspdr := spi_TXRX_data_spdr s count d _hw
  have hns : s.state ≠ Send := by
    rcases hst with h | h <;> rw [h] <;> decide
  obtain ⟨_, c2⟩ := spi_TXRX_data_count s count d _hw
  refine ⟨⟨fun h => ?_, fun h => ?_⟩, fun h => ?_, fun h => ?_⟩
  · by_cases hp : 0 < (spi_TXRX_data s count d).s.len
    · exact hp
    · rw [if_neg (fun k => hp k.2)] at hstate
      exact absurd (hstate ▸ h.1) hns
  · rw [if_pos ⟨hst, h⟩] at hstate hspdr
    exact ⟨hstate, hspdr⟩
  · rw [if_neg (fun k => by omega)] at hstate hspdr
    exact ⟨hstate, hspdr⟩
  · omega

/-- Instances of `transfer_start_guard`: with three bytes already counted an
enqueue of nothing starts the transfer; with nothing counted an enqueue of
nothing leaves the attached channel as it is. -/
theorem transfer_start_guard_witness :
    (attachedPending.state = Attached ∨ attachedPending.state = Complete) ∧
    attachedPending.r_index < SPI_BUFFER_SIZE ∧ attachedPending.w_index < SPI_BUFFER_SIZE ∧
    0 < (spi_TXRX_data attachedPending 0 (fun _ => 85)).s.len ∧
    (spi_TXRX_data attachedPending 0 (fun _ => 85)).s.state = Send ∧
    (spi_TXRX_data attachedChannel 0 (fun _ => 85)).s.len = 0 ∧
    (spi_TXRX_data attachedChannel 0 (fun _ => 85)).s.state = attachedChannel.state ∧
    (spi_TXRX_data attachedChannel 0 (fun _ => 85)).spdr = none :=
  have h := transfer_start_guard attachedPending 0 (fun _ => 85)
    (Or.inl rfl) (by decide) (by decide)
  have h2 := transfer_start_guard attachedChannel 0 (fun _ => 85)
    (Or.inl rfl) (by decide) (by decide)
  ⟨Or.inl rfl, by decide, by decide, by decide, (h.1.2 (by decide)).1, by decide,
    (h2.2.1 (by decide)).1, (h2.2.1 (by decide)).2⟩

set_option maxRecDepth 8192 in
/-- C19 fails on the code: from `spi_init` a client attaches, sends 9 bytes
and queues 10 more, which leaves both cursors at 9 and the count at 10.  One
more byte enqueued: `temp` is 19, the loop still runs because its guard is
`spi_data.len <= SPI_BUFFER_SIZE`, `temp` becomes 20 and the single
subtraction brings it to 10.  The byte is stored to position 10, past the
array. -/
theorem enqueue_stores_past_array :
    legal (spi_init zeroChannel) fillOps = true ∧
    (run (spi_init zeroChannel) fillOps).r_index < SPI_BUFFER_SIZE ∧
    (run (spi_init zeroChannel) fillOps).w_index = 9 ∧
    (run (spi_init zeroChannel) fillOps).len = 10 ∧
    (spi_TXRX_data (run (spi_init zeroChannel) fillOps) 1 (fun _ => 85)).touched = [10] ∧
    (spi_TXRX_data (run (spi_init zeroChannel) fillOps) 1 (fun _ => 85)).s.data 10 = 85 ∧
    ¬ (∀ i ∈ (spi_TXRX_data (run (spi_init zeroChannel) fillOps) 1 (fun _ => 85)).touched,
        i < SPI_BUFFER_SIZE) := by
  decide

set_option maxRecDepth 8192 in
/-- C20 fails on the code: the record `fillOps` leads to is in state `Send`
with both cursors at 9 and the count at 10.  An enqueue of one byte, 85,
keeps the state, writes nothing to `SPDR` and raises the count to 11, but the
byte is stored to position 10, which is the field `r_index`: the read cursor,
set to the write cursor at the start of the call, ends as 85 and not as 9. -/
theorem enqueue_overwrites_read_index :
    legal (spi_init zeroChannel) fillOps = true ∧
    (run (spi_init zeroChannel) fillOps).state = Send ∧
    (run (spi_init zeroChannel) fillOps).r_index < SPI_BUFFER_SIZE ∧
    (run (spi_init zeroChannel) fillOps).w_index < SPI_BUFFER_SIZE ∧
    (spi_TXRX_data (run (spi_init zeroChannel) fillOps) 1 (fun _ => 85)).s.state = Send ∧
    (spi_TXRX_data (run (spi_init zeroChannel) fillOps) 1 (fun _ => 85)).spdr = none ∧
    (spi_TXRX_data (run (spi_init zeroChannel) fillOps) 1 (fun _ => 85)).ret = 0 ∧
    (spi_TXRX_data (run (spi_init zeroChannel) fillOps) 1 (fun _ => 85)).s.len = 11 ∧
    (spi_TXRX_data (run (spi_init zeroChannel) fillOps) 1 (fun _ => 85)).s.w_index = 9 ∧
    (spi_TXRX_data (run (spi_init zeroChannel) fillOps) 1 (fun _ => 85)).s.r_index = 85 := by
  decide

/-! ## The enqueue away from the full channel at cursor 9 -/

/-- The loop of `spi_TXRX_data` stores inside the array only, as long as the
running store index starts at 18 or below when the loop can run. -/
theorem txLoop_in_range (src : Nat → Nat) :
    ∀ (n : Nat) (s : spi_struct) (temp p : Nat) (acc : List Nat),
      (s.len ≤ SPI_BUFFER_SIZE → temp ≤ 18) →
      (∀ i ∈ acc, i < SPI_BUFFER_SIZE) →
      ∀ i ∈ (txLoop src n s temp p acc).stored, i < SPI_BUFFER_SIZE := by
  intro n
  induction n with
  | zero => intro s temp p acc _ hacc; exact hacc
  | succ n ih =>
    intro s temp p acc hT hacc
    simp only [txLoop]
    split
    · rename_i hle
      have h18 := hT hle
      have hE : (if (temp + 1) % 256 ≥ SPI_BUFFER_SIZE then (temp + 1) % 256 - SPI_BUFFER_SIZE
          else (temp + 1) % 256) < SPI_BUFFER_SIZE := by
        simp only [SPI_BUFFER_SIZE]
        split <;> omega
      apply ih _ _ _ _ (fun _ => Nat.le_trans (Nat.le_of_lt hE) (by decide))
      intro i hi
      rcases List.mem_append.mp hi with h | h
      · exact hacc i h
      · rw [List.mem_singleton.mp h]; exact hE
    · exact hacc

/-- Away from the one case that stores past the array (write cursor 9 with
count 10 and at least one byte offered), every position `spi_TXRX_data`
stores to or loads from lies inside the array, for a record with both
cursors below 10. -/
theorem enqueue_in_range (s : spi_struct) (count : Nat) (d : Nat → Nat)
    (_hr : s.r_index < SPI_BUFFER_SIZE) (hw : s.w_index < SPI_BUFFER_SIZE)
    (hno : ¬ (s.w_index = 9 ∧ s.len = 10 ∧ 1 ≤ count)) :
    ∀ i ∈ (spi_TXRX_data s count d).touched, i < SPI_BUFFER_SIZE := by
  have hwl := txLoop_w_index d count { s with r_index := s.w_index }
    ((s.w_index + s.len) % 256) 0 [] (temp_start_le s hw)
  simp only at hwl
  have hst : ∀ i ∈ (txLoop d count { s with r_index := s.w_index }
      ((s.w_index + s.len) % 256) 0 []).stored, i < SPI_BUFFER_SIZE := by
    cases count with
    | zero => intro i hi; simp [txLoop] at hi
    | succ n =>
      apply txLoop_in_range d (n + 1) _ _ 0 []
      · intro hle
        simp only [SPI_BUFFER_SIZE] at hw hle
        have : ¬ (s.w_index = 9 ∧ s.len = 10) := fun k => hno ⟨k.1, k.2, by omega⟩
        show (s.w_index + s.len) % 256 ≤ 18
        omega
      · intro i hi; simp at hi
  simp only [spi_TXRX_data]
  split
  · intro i hi
    rcases List.mem_append.mp hi with h | h
    · exact hst i h
    · rw [List.mem_singleton.mp h, hwl]; exact hw
  · exact hst

/-- A store changes array, cursors and count in the same way on two records
that agree on them. -/
theorem storeData_congr (s s' : spi_struct) (i v : Nat)
    (hd : s'.data = s.data) (hr : s'.r_index = s.r_index) (hwi : s'.w_index = s.w_index)
    (hl : s'.len = s.len) :
    (storeData s' i v).data = (storeData s i v).data ∧
    (storeData s' i v).r_index = (storeData s i v).r_index ∧
    (storeData s' i v).w_index = (storeData s i v).w_index ∧
    (storeData s' i v).len = (storeData s i v).len := by
  simp only [storeData]
  split
  · exact ⟨by simp [hd], rfl, hwi, hl⟩
  · split
    · exact ⟨by simp [hd], hr, rfl, hl⟩
    · split
      · exact ⟨by simp [hd], hr, hwi, rfl⟩
      · exact ⟨by simp [hd], hr, hwi, hl⟩

/-- The loop of `spi_TXRX_data` does not look at the state: on two records
that agree on array, cursors and count it leaves the same array, cursors and
count, the same rest of `len` and the same log. -/
theorem txLoop_congr (src : Nat → Nat) :
    ∀ (n : Nat) (s s' : spi_struct) (temp p : Nat) (acc : List Nat),
      s'.data = s.data → s'.r_index = s.r_index → s'.w_index = s.w_index → s'.len = s.len →
      (txLoop src n s' temp p acc).s.data = (txLoop src n s temp p acc).s.data ∧
      (txLoop src n s' temp p acc).s.r_index = (txLoop src n s temp p acc).s.r_index ∧
      (txLoop src n s' temp p acc).s.w_index = (txLoop src n s temp p acc).s.w_index ∧
      (txLoop src n s' temp p acc).s.len = (txLoop src n s temp p acc).s.len ∧
      (txLoop src n s' temp p acc).len = (txLoop src n s temp p acc).len ∧
      (txLoop src n s' temp p acc).stored = (txLoop src n s temp p acc).stored := by
  intro n
  induction n with
  | zero => intro s s' temp p acc hd hr hwi hl; exact ⟨hd, hr, hwi, hl, rfl, rfl⟩
  | succ n ih =>
    intro s s' temp p acc hd hr hwi hl
    simp only [txLoop]
    by_cases hle : s.len ≤ SPI_BUFFER_SIZE
    · have hle' : s'.len ≤ SPI_BUFFER_SIZE := by rw [hl]; exact hle
      simp only [if_pos hle, if_pos hle']
      obtain ⟨k1, k2, k3, k4⟩ := storeData_congr { s with len := (s.len + 1) % 256 }
        { s' with len := (s'.len + 1) % 256 }
        (if (temp + 1) % 256 ≥ SPI_BUFFER_SIZE then (temp + 1) % 256 - SPI_BUFFER_SIZE
          else (temp + 1) % 256) (src p) hd hr hwi (by show (s'.len + 1) % 256 = _; rw [hl])
      exact ih _ _ _ _ _ k1 k2 k3 k4
    · have hle' : ¬ s'.len ≤ SPI_BUFFER_SIZE := by rw [hl]; exact hle
      simp only [if_neg hle, if_neg hle']
      exact ⟨hd, hr, hwi, hl, trivial, trivial⟩

/-- Away from the one case that stores past the array (write cursor 9 with
count 10 and at least one byte offered): on a record in state `Idle` or
`Send` with both cursors
below 10, `spi_TXRX_data` keeps the state and writes nothing to `SPDR`, sets
the read cursor to the write cursor, and what it returns plus the increase
of the count is `count`; it stores as many bytes as the count rises, and
every slot of the array is the old one with `d 0`, `d 1`, .. stored in order
at the positions it logs. -/
theorem enqueue_without_ownership_elsewhere (s : spi_struct) (count : Nat) (d : Nat → Nat)
    (hst : s.state = Idle ∨ s.state = Send)
    (_hr : s.r_index < SPI_BUFFER_SIZE) (hw : s.w_index < SPI_BUFFER_SIZE)
    (hno : ¬ (s.w_index = 9 ∧ s.len = 10 ∧ 1 ≤ count)) :
    (spi_TXRX_data s count d).s.state = s.state ∧
    (spi_TXRX_data s count d).spdr = none ∧
    (spi_TXRX_data s count d).s.r_index = s.w_index ∧
    (spi_TXRX_data s count d).s.w_index = s.w_index ∧
    s.len ≤ (spi_TXRX_data s count d).s.len ∧
    (spi_TXRX_data s count d).ret + ((spi_TXRX_data s count d).s.len - s.len) = count ∧
    (spi_TXRX_data s count d).touched.length = (spi_TXRX_data s count d).s.len - s.len ∧
    (∀ j, j < SPI_BUFFER_SIZE →
      (spi_TXRX_data s count d).s.data j =
        writeAll s.data d (spi_TXRX_data s count d).touched 0 j) := by
  have hna : ¬ (s.state = Attached ∨ s.state = Complete) := by
    rcases hst with h | h <;> rw [h] <;> decide
  have hstate := spi_TXRX_data_state s count d
  have hspdr := spi_TXRX_data_spdr s count d hw
  rw [if_neg (fun k => hna k.1)] at hstate hspdr
  obtain ⟨c1, c2⟩ := spi_TXRX_data_count s count d hw
  obtain ⟨_, k2, k3⟩ := spi_TXRX_data_stores s count d
  have hinc : count - (spi_TXRX_data s count d).ret = (spi_TXRX_data s count d).s.len - s.len := by
    omega
  rw [hspdr, hinc] at k2
  simp only [Option.toList_none, List.length_nil, Nat.add_zero] at k2
  rw [hinc, ← k2, List.take_length] at k3
  have hr : (spi_TXRX_data s count d).s.r_index = s.w_index := by
    cases count with
    | zero => exact (spi_TXRX_data_loop s 0 d).2.2.1
    | succ n =>
      apply spi_TXRX_data_r_index
      intro hle
      simp only [SPI_BUFFER_SIZE] at hw hle
      have : ¬ (s.w_index = 9 ∧ s.len = 10) := fun k => hno ⟨k.1, k.2, by omega⟩
      omega
  exact ⟨hstate, hspdr, hr, spi_TXRX_data_w_index s count d hw, c1, by omega, k2,
    fun j _ => by rw [k3]⟩

/-- The enqueue does the same on a record whatever its state: array, cursors,
count and returned value of `spi_TXRX_data` are those the same call gives on
the record with state `Attached`. -/
theorem enqueue_ignores_ownership (s : spi_struct) (count : Nat) (d : Nat → Nat) :
    (spi_TXRX_data s count d).ret = (spi_TXRX_data { s with state := Attached } count d).ret ∧
    (spi_TXRX_data s count d).s.len =
      (spi_TXRX_data { s with state := Attached } count d).s.len ∧
    (spi_TXRX_data s count d).s.data =
      (spi_TXRX_data { s with state := Attached } count d).s.data ∧
    (spi_TXRX_data s count d).s.r_index =
      (spi_TXRX_data { s with state := Attached } count d).s.r_index ∧
    (spi_TXRX_data s count d).s.w_index =
      (spi_TXRX_data { s with state := Attached } count d).s.w_index := by
  obtain ⟨e1, e2, e3, e4, e5⟩ := spi_TXRX_data_loop s count d
  obtain ⟨a1, a2, a3, a4, a5⟩ := spi_TXRX_data_loop { s with state := Attached } count d
  obtain ⟨i1, i2, i3, i4, i5, _⟩ := txLoop_congr d count { s with r_index := s.w_index }
    { s with state := Attached, r_index := s.w_index } ((s.w_index + s.len) % 256) 0 []
    rfl rfl rfl rfl
  simp only at a1 a2 a3 a4 a5
  rw [e1, e2, e3, e4, e5, a1, a2, a3, a4, a5]
  exact ⟨i5.symm, i4.symm, i1.symm, i2.symm, i3.symm⟩

end SPI
